import Mathlib

/-!
Verification of the jira-scrappy-view ingestion pipeline and storage layer.

The development shallowly embeds the Python sources (`jira_scraper.py`,
`jira_viewer.py`).  Parsed JSON / Python values are modelled by the `Json`
inductive (Python's `None` and JSON `null` both become `Json.null`); dicts are
association lists in insertion order, mirroring Python dict semantics.
Attribute access that can raise in Python (e.g. `.get` on a non-dict) is
modelled in the `Except String` monad; the exact exception message carried in
the `.error` payload is not significant, only the ok/error distinction is.
-/

inductive Json where
  | null : Json
  | bool (b : Bool) : Json
  | num (n : Int) : Json
  | str (s : String) : Json
  | arr (xs : List Json) : Json
  | obj (kvs : List (String × Json)) : Json

mutual

def jsonBeq : Json → Json → Bool
  | .null, .null => true
  | .bool a, .bool b => a == b
  | .num a, .num b => a == b
  | .str a, .str b => a == b
  | .arr xs, .arr ys => jsonListBeq xs ys
  | .obj xs, .obj ys => jsonKvBeq xs ys
  | _, _ => false

def jsonListBeq : List Json → List Json → Bool
  | [], [] => true
  | x :: xs, y :: ys => jsonBeq x y && jsonListBeq xs ys
  | _, _ => false

def jsonKvBeq : List (String × Json) → List (String × Json) → Bool
  | [], [] => true
  | (k, v) :: xs, (l, w) :: ys => k == l && jsonBeq v w && jsonKvBeq xs ys
  | _, _ => false

end

mutual

theorem jsonBeq_iff : ∀ a b : Json, jsonBeq a b = true ↔ a = b
  | a, b => by
    cases a <;> cases b <;> simp [jsonBeq]
    case arr.arr xs ys => exact jsonListBeq_iff xs ys
    case obj.obj xs ys => exact jsonKvBeq_iff xs ys

theorem jsonListBeq_iff : ∀ xs ys : List Json, jsonListBeq xs ys = true ↔ xs = ys
  | [], [] => by simp [jsonListBeq]
  | x :: xs, y :: ys => by
    simp [jsonListBeq, jsonBeq_iff x y, jsonListBeq_iff xs ys]
  | [], _ :: _ => by simp [jsonListBeq]
  | _ :: _, [] => by simp [jsonListBeq]

theorem jsonKvBeq_iff : ∀ xs ys : List (String × Json), jsonKvBeq xs ys = true ↔ xs = ys
  | [], [] => by simp [jsonKvBeq]
  | (k, v) :: xs, (l, w) :: ys => by
    simp [jsonKvBeq, jsonBeq_iff v w, jsonKvBeq_iff xs ys, and_assoc]
  | [], _ :: _ => by simp [jsonKvBeq]
  | _ :: _, [] => by simp [jsonKvBeq]

end

instance : DecidableEq Json := fun a b => decidable_of_iff _ (jsonBeq_iff a b)

theorem jsonBeq_refl (a : Json) : jsonBeq a a = true := (jsonBeq_iff a a).mpr rfl

theorem jsonBeq_eq_false_of_ne {a b : Json} (h : a ≠ b) : jsonBeq a b = false := by
  cases hb : jsonBeq a b
  · rfl
  · exact absurd ((jsonBeq_iff a b).mp hb) h

def Json.isObj : Json → Bool
  | .obj _ => true
  | _ => false

def Json.isStr : Json → Bool
  | .str _ => true
  | _ => false

/-- Python `s.startswith(p)` (character-list based). -/
def strStartsWith (s p : String) : Bool := p.data.isPrefixOf s.data

/-- ASCII lowercasing, the case folding both SQLite's `LIKE`/FTS tokenizer and
the ASCII fragment of Python's `str.lower` perform. -/
def strToLower (s : String) : String := String.mk (s.data.map Char.toLower)

def strContainsChar (s : String) (c : Char) : Bool := s.data.contains c

def listIsInfix [BEq α] (needle hay : List α) : Bool :=
  hay.tails.any (fun t => needle.isPrefixOf t)

/-- Case-insensitive substring test (SQL `LIKE '%needle%'` on ASCII data). -/
def strContainsSub (hay needle : String) : Bool :=
  listIsInfix (strToLower needle).data (strToLower hay).data

/-- Lookup in a Python dict (association list); keys are unique in dicts
produced by JSON parsing, so the first hit is the value. -/
def objLookup : List (String × Json) → String → Option Json
  | [], _ => none
  | (k, v) :: rest, key => if k = key then some v else objLookup rest key

/-- Python dict assignment `d[k] = v`: replaces the value in place if the key
exists (keeping its position), otherwise appends. -/
def assocSet (d : List (String × Json)) (k : String) (v : Json) : List (String × Json) :=
  if d.any (fun kv => kv.1 == k) then d.map (fun kv => if kv.1 == k then (k, v) else kv)
  else d ++ [(k, v)]

/-- Python `x.get(k)`: `None` when the key is absent; raises `AttributeError`
when the receiver is not a dict. -/
def pyGet (receiver : Json) (k : String) : Except String Json :=
  match receiver with
  | .obj kvs => .ok ((objLookup kvs k).getD .null)
  | _ => .error "AttributeError"

/-- Python `x.get(k, default)`: the default applies only when the key is
absent, not when it maps to `None`. -/
def pyGetD (receiver : Json) (k : String) (d : Json) : Except String Json :=
  match receiver with
  | .obj kvs => .ok ((objLookup kvs k).getD d)
  | _ => .error "AttributeError"

/-- Models the first `.get`/`.items()` access on a value the code assumes to be
a dict: yields the underlying association list or raises. -/
def expectDict : Json → Except String (List (String × Json))
  | .obj kvs => .ok kvs
  | _ => .error "AttributeError"

/-- Python truthiness of a parsed-JSON value. -/
def pyTruthy : Json → Bool
  | .null => false
  | .bool b => b
  | .num n => n != 0
  | .str s => s ≠ ""
  | .arr xs => !xs.isEmpty
  | .obj kvs => !kvs.isEmpty

/-- Python `for x in v`: lists iterate their elements, strings their
characters, dicts their keys; anything else raises `TypeError`. -/
def asIterable : Json → Except String (List Json)
  | .arr xs => .ok xs
  | .str s => .ok (s.toList.map (fun c => .str (String.singleton c)))
  | .obj kvs => .ok (kvs.map (fun kv => .str kv.1))
  | _ => .error "TypeError"

mutual

/-- Python `repr` of a parsed-JSON value (enough of it for the containers the
code can feed to `str`). -/
def pyRepr : Json → String
  | .null => "None"
  | .bool true => "True"
  | .bool false => "False"
  | .num n => toString n
  | .str s => "\x27" ++ s ++ "\x27"
  | .arr xs => "[" ++ pyReprList xs ++ "]"
  | .obj kvs => "\x7b" ++ pyReprKvs kvs ++ "\x7d"

def pyReprList : List Json → String
  | [] => ""
  | [x] => pyRepr x
  | x :: y :: rest => pyRepr x ++ ", " ++ pyReprList (y :: rest)

def pyReprKvs : List (String × Json) → String
  | [] => ""
  | [(k, v)] => "\x27" ++ k ++ "\x27: " ++ pyRepr v
  | (k, v) :: l :: rest => "\x27" ++ k ++ "\x27: " ++ pyRepr v ++ ", " ++ pyReprKvs (l :: rest)

end

/-- Python `str` of a parsed-JSON value: identity on strings, `repr`-style for
containers, `None`/`True`/`False` for the singletons. -/
def pyStr : Json → String
  | .str s => s
  | j => pyRepr j

/-- Escape of one character inside a JSON string literal (the inputs exercised
here contain no exotic control characters). -/
def jsonEscapeChar (c : Char) : String :=
  if c = '"' then "\\\""
  else if c = '\\' then "\\\\"
  else if c = '\n' then "\\n"
  else if c = '\r' then "\\r"
  else if c = '\t' then "\\t"
  else String.singleton c

def jsonEscape (s : String) : String :=
  String.join (s.toList.map jsonEscapeChar)

mutual

/-- Python `json.dumps` with its default separators. -/
def jsonDumps : Json → String
  | .null => "null"
  | .bool true => "true"
  | .bool false => "false"
  | .num n => toString n
  | .str s => "\"" ++ jsonEscape s ++ "\""
  | .arr xs => "[" ++ jsonDumpsList xs ++ "]"
  | .obj kvs => "\x7b" ++ jsonDumpsKvs kvs ++ "\x7d"

def jsonDumpsList : List Json → String
  | [] => ""
  | [x] => jsonDumps x
  | x :: y :: rest => jsonDumps x ++ ", " ++ jsonDumpsList (y :: rest)

def jsonDumpsKvs : List (String × Json) → String
  | [] => ""
  | [(k, v)] => "\"" ++ jsonEscape k ++ "\": " ++ jsonDumps v
  | (k, v) :: l :: rest =>
    "\"" ++ jsonEscape k ++ "\": " ++ jsonDumps v ++ ", " ++ jsonDumpsKvs (l :: rest)

end

/-- Sequential effectful map, as a Python list comprehension evaluates: the
first raising element aborts the whole comprehension. -/
def mapExcept (f : α → Except String β) : List α → Except String (List β)
  | [] => .ok []
  | x :: rest => do
    let y ← f x
    let ys ← mapExcept f rest
    .ok (y :: ys)

theorem mapExcept_ok_forall₂ {f : α → Except String β} :
    ∀ {xs : List α} {ys : List β}, mapExcept f xs = .ok ys →
      List.Forall₂ (fun a b => f a = .ok b) xs ys := by
  intro xs
  induction xs with
  | nil => intro ys h; simp [mapExcept] at h; subst h; exact .nil
  | cons x rest ih =>
    intro ys h
    simp only [mapExcept] at h
    cases hx : f x with
    | error e => rw [hx] at h; simp [Bind.bind, Except.bind] at h
    | ok y =>
      rw [hx] at h
      simp only [Bind.bind, Except.bind] at h
      cases hrest : mapExcept f rest with
      | error e => rw [hrest] at h; simp [Except.bind] at h
      | ok ys' =>
        rw [hrest] at h
        simp only [Except.pure, pure] at h
        cases h
        exact .cons hx (ih hrest)

/-- Field projection on an object-shaped value (for stating theorems about
produced records). -/
def jGet (j : Json) (k : String) : Option Json :=
  match j with
  | .obj kvs => objLookup kvs k
  | _ => none

def jPath (j : Json) : List String → Option Json
  | [] => some j
  | k :: rest => match jGet j k with
    | some v => jPath v rest
    | none => none

/-! ## The rich-text document flattener (`JiraScraper._adf_to_text`) -/

/-- Direct contribution of one dict node, by its `type` tag: a "text" node
contributes `node.get("text", "")` (whatever value that is), a "hardBreak" a
newline, a "mention" an `@`-prefixed display text (`.get` on a non-dict
`attrs` raises), anything else nothing. -/
def extract_text_head (kvs : List (String × Json)) : Except String (List Json) :=
  let typeVal := (objLookup kvs "type").getD .null
  if jsonBeq typeVal (.str "text") then
    Except.ok [(objLookup kvs "text").getD (.str "")]
  else if jsonBeq typeVal (.str "hardBreak") then
    Except.ok [Json.str "\n"]
  else if jsonBeq typeVal (.str "mention") then do
    let attrs := (objLookup kvs "attrs").getD (.obj [])
    let t ← pyGetD attrs "text" (.str "user")
    Except.ok [Json.str ("@" ++ pyStr t)]
  else Except.ok []

mutual

/-- Embeds the inner `extract_text` of `_adf_to_text`: collects the strings the
Python code appends to `text_parts` (as `Json` values, because a malformed
`text` field lets Python append a non-string, which only fails later in
`"".join`).  String nodes contribute themselves, lists recurse elementwise,
dicts contribute their `extract_text_head` and then recurse into a truthy
`content` (`node.get("content", [])`); any other scalar contributes nothing. -/
def extract_text : Json → Except String (List Json)
  | .str s => .ok [.str s]
  | .arr xs => extract_text_list xs
  | .obj kvs => do
    let headParts ← extract_text_head kvs
    let tailParts ← extract_text_content kvs
    .ok (headParts ++ tailParts)
  | _ => .ok []

/-- Walks the dict looking for its `content` entry (first hit, exactly as
`objLookup` would find it) and recurses into it when truthy; an absent or
falsy `content` contributes nothing. -/
def extract_text_content : List (String × Json) → Except String (List Json)
  | [] => .ok []
  | (k, v) :: rest =>
    if k = "content" then
      if pyTruthy v then extract_text v else .ok []
    else extract_text_content rest

def extract_text_list : List Json → Except String (List Json)
  | [] => .ok []
  | x :: rest => do
    let a ← extract_text x
    let b ← extract_text_list rest
    .ok (a ++ b)

end

theorem extract_text_content_eq (kvs : List (String × Json)) :
    extract_text_content kvs =
      match objLookup kvs "content" with
      | some c => if pyTruthy c then extract_text c else .ok []
      | none => .ok [] := by
  induction kvs with
  | nil => rfl
  | cons kv rest ih =>
    obtain ⟨k, v⟩ := kv
    by_cases hk : k = "content"
    · subst hk
      simp [extract_text_content, objLookup]
    · simp [extract_text_content, objLookup, hk, ih]

/-- Embeds `"".join(text_parts)`: concatenates the parts, raising `TypeError`
when a collected part is not a string. -/
def joinStrParts : List Json → Except String String
  | [] => .ok ""
  | .str s :: rest => (joinStrParts rest).map (fun t => s ++ t)
  | _ :: _ => .error "TypeError"

/-- Embeds `JiraScraper._adf_to_text`: a non-dict argument is returned as
`str(adf)`; a dict is flattened by `extract_text` and joined. -/
def adf_to_text (adf : Json) : Except String String :=
  if adf.isObj then
    match extract_text adf with
    | .ok parts => joinStrParts parts
    | .error e => .error e
  else .ok (pyStr adf)

/-- Well-formed node trees in the sense of the spec's document model: strings,
scalars, sequences of well-formed nodes, and tagged objects whose optional
`text` field (if present) is a string, whose optional `attrs` field (if
present) is an object, and whose optional `content` field (if present) is
itself well-formed.  The `type` tag is unconstrained (unknown types are
explicitly allowed). -/
inductive ADFWellFormed : Json → Prop
  | null : ADFWellFormed .null
  | bool (b : Bool) : ADFWellFormed (.bool b)
  | num (n : Int) : ADFWellFormed (.num n)
  | str (s : String) : ADFWellFormed (.str s)
  | arr (xs : List Json) (h : ∀ x ∈ xs, ADFWellFormed x) : ADFWellFormed (.arr xs)
  | obj (kvs : List (String × Json))
      (htext : ∀ t, objLookup kvs "text" = some t → t.isStr = true)
      (hattrs : ∀ a, objLookup kvs "attrs" = some a → a.isObj = true)
      (hcontent : ∀ c, objLookup kvs "content" = some c → ADFWellFormed c) :
      ADFWellFormed (.obj kvs)

theorem joinStrParts_ok {parts : List Json} (h : ∀ p ∈ parts, p.isStr = true) :
    ∃ s, joinStrParts parts = .ok s := by
  induction parts with
  | nil => exact ⟨"", rfl⟩
  | cons p rest ih =>
    have hp := h p (List.mem_cons_self p rest)
    cases p with
    | str s =>
      obtain ⟨t, ht⟩ := ih (fun q hq => h q (List.mem_cons_of_mem _ hq))
      exact ⟨s ++ t, by simp [joinStrParts, ht, Except.map]⟩
    | null => simp [Json.isStr] at hp
    | bool b => simp [Json.isStr] at hp
    | num n => simp [Json.isStr] at hp
    | arr xs => simp [Json.isStr] at hp
    | obj kvs => simp [Json.isStr] at hp

theorem extract_text_list_ok {xs : List Json}
    (h : ∀ x ∈ xs, ∃ parts, extract_text x = .ok parts ∧ ∀ p ∈ parts, p.isStr = true) :
    ∃ parts, extract_text_list xs = .ok parts ∧ ∀ p ∈ parts, p.isStr = true := by
  induction xs with
  | nil => exact ⟨[], by simp [extract_text_list], by simp⟩
  | cons x rest ih =>
    obtain ⟨a, ha, hastr⟩ := h x (List.mem_cons_self x rest)
    obtain ⟨b, hb, hbstr⟩ := ih (fun y hy => h y (List.mem_cons_of_mem _ hy))
    refine ⟨a ++ b, ?_, ?_⟩
    · simp [extract_text_list, ha, hb, Bind.bind, Except.bind]
    · intro p hp
      rcases List.mem_append.mp hp with hpa | hpb
      · exact hastr p hpa
      · exact hbstr p hpb

theorem extract_text_wf : ∀ {j : Json}, ADFWellFormed j →
    ∃ parts, extract_text j = .ok parts ∧ ∀ p ∈ parts, p.isStr = true := by
  intro j h
  induction h with
  | null => exact ⟨[], by simp [extract_text], by simp⟩
  | bool b => exact ⟨[], by simp [extract_text], by simp⟩
  | num n => exact ⟨[], by simp [extract_text], by simp⟩
  | str s => exact ⟨[.str s], by simp [extract_text], by simp [Json.isStr]⟩
  | arr xs h ih =>
    obtain ⟨parts, hp, hstr⟩ := extract_text_list_ok ih
    exact ⟨parts, by simp [extract_text, hp], hstr⟩
  | obj kvs htext hattrs hcontent ih =>
    have hhead : ∃ headParts,
        extract_text_head kvs = Except.ok headParts ∧ ∀ p ∈ headParts, p.isStr = true := by
      by_cases h1 : jsonBeq ((objLookup kvs "type").getD .null) (.str "text") = true
      · refine ⟨[(objLookup kvs "text").getD (.str "")], by rw [extract_text_head]; simp [h1], ?_⟩
        intro p hp
        rcases List.mem_singleton.mp hp with rfl
        cases ht : objLookup kvs "text" with
        | none => simp [ht, Json.isStr]
        | some t => simpa [ht] using htext t ht
      · by_cases h2 : jsonBeq ((objLookup kvs "type").getD .null) (.str "hardBreak") = true
        · exact ⟨[Json.str "\n"], by rw [extract_text_head]; simp [h1, h2], by simp [Json.isStr]⟩
        · by_cases h3 : jsonBeq ((objLookup kvs "type").getD .null) (.str "mention") = true
          · cases hat : objLookup kvs "attrs" with
            | none =>
              refine ⟨[Json.str ("@" ++ pyStr ((objLookup [] "text").getD (.str "user")))], ?_, ?_⟩
              · rw [extract_text_head]
                simp [h1, h2, h3, hat, pyGetD, Bind.bind, Except.bind, objLookup]
              · simp [Json.isStr]
            | some a =>
              have ha := hattrs a hat
              cases a with
              | obj akvs =>
                refine ⟨[Json.str ("@" ++ pyStr ((objLookup akvs "text").getD (.str "user")))], ?_, ?_⟩
                · rw [extract_text_head]
                  simp [h1, h2, h3, hat, pyGetD, Bind.bind, Except.bind]
                · simp [Json.isStr]
              | null => simp [Json.isObj] at ha
              | bool b => simp [Json.isObj] at ha
              | num n => simp [Json.isObj] at ha
              | str s => simp [Json.isObj] at ha
              | arr xs => simp [Json.isObj] at ha
          · exact ⟨[], by rw [extract_text_head]; simp [h1, h2, h3], by simp⟩
    obtain ⟨headParts, hhead_eq, hhead_str⟩ := hhead
    have htail : ∃ tailParts,
        extract_text_content kvs = Except.ok tailParts ∧ ∀ p ∈ tailParts, p.isStr = true := by
      cases hc : objLookup kvs "content" with
      | none => exact ⟨[], by rw [extract_text_content_eq, hc], by simp⟩
      | some c =>
        by_cases htr : pyTruthy c = true
        · obtain ⟨t, ht, hts⟩ := ih c hc
          exact ⟨t, by rw [extract_text_content_eq, hc]; simp [htr, ht], hts⟩
        · exact ⟨[], by rw [extract_text_content_eq, hc]; simp [htr], by simp⟩
    obtain ⟨tailParts, htail_eq, htail_str⟩ := htail
    refine ⟨headParts ++ tailParts, ?_, ?_⟩
    · simp [extract_text, hhead_eq, htail_eq, Bind.bind, Except.bind]
    · intro p hp
      rcases List.mem_append.mp hp with hpa | hpb
      · exact hhead_str p hpa
      · exact htail_str p hpb

theorem adf_to_text_wf {j : Json} (h : ADFWellFormed j) : ∃ s, adf_to_text j = .ok s := by
  cases hobj : j.isObj with
  | false => exact ⟨pyStr j, by simp [adf_to_text, hobj]⟩
  | true =>
    obtain ⟨parts, hparts, hstr⟩ := extract_text_wf h
    obtain ⟨s, hs⟩ := joinStrParts_ok hstr
    exact ⟨s, by simp [adf_to_text, hobj, hparts, hs]⟩

/-- Chain of `content`-nested "doc" nodes of the given depth, ending in a
string leaf; used to exercise deep nesting. -/
def adfDeep : Nat → Json
  | 0 => .str "x"
  | n + 1 => .obj [("type", .str "doc"), ("content", .arr [adfDeep n])]

theorem adfDeep_wf : ∀ n, ADFWellFormed (adfDeep n)
  | 0 => .str "x"
  | n + 1 => by
    refine .obj _ ?_ ?_ ?_
    · intro t ht
      simp [objLookup] at ht
    · intro a ha
      simp [objLookup] at ha
    · intro c hc
      simp [objLookup] at hc
      subst hc
      refine .arr _ ?_
      intro x hx
      rcases List.mem_singleton.mp hx with rfl
      exact adfDeep_wf n

/-- C5 counterexample: the claim says an unknown/untyped scalar nested inside a
content sequence is coerced to its string form in the output.  On the input
`{"type-less node with content": [42]}` the nested scalar `42` matches none of
the branches of `extract_text` and is silently dropped: the output is `""`,
not a string containing `str(42) = "42"`.  Only a top-level scalar is coerced
via `str(adf)`. -/
theorem flattener_nested_scalar_dropped_cex :
    adf_to_text (.obj [("content", .arr [.num 42])]) = .ok "" ∧
    pyStr (.num 42) = "42" ∧ ("" : String) ≠ "42" :=
  ⟨rfl, rfl, by decide⟩

/-- C5 (amended): `flatten` is total on every well-formed node tree — including
empty content sequences, unknown `type` tags and arbitrarily deep `content`
chains — and a scalar is coerced to its string form when it is the top-level
argument; but a non-string scalar nested inside a content sequence contributes
nothing to the output (it is dropped, not coerced). -/
theorem flattener_totality :
    (∀ j, ADFWellFormed j → ∃ s, adf_to_text j = .ok s) ∧
    (∀ j, j.isObj = false → adf_to_text j = .ok (pyStr j)) ∧
    adf_to_text (.obj [("content", .arr [.num 42])]) = .ok "" := by
  refine ⟨fun j h => adf_to_text_wf h, fun j h => by simp [adf_to_text, h], rfl⟩

/-- Witness for `flattener_totality`: a 100-level-deep content chain is
well-formed and flattens successfully; a top-level bare scalar is returned as
its string form. -/
theorem flattener_totality_witness :
    ADFWellFormed (adfDeep 100) ∧ (∃ s, adf_to_text (adfDeep 100) = .ok s) ∧
    (Json.num 7).isObj = false ∧ adf_to_text (.num 7) = .ok "7" :=
  ⟨adfDeep_wf 100, flattener_totality.1 _ (adfDeep_wf 100), rfl,
    flattener_totality.2.1 _ rfl⟩

/-! ## Custom-field projection (`JiraScraper._extract_custom_fields`) -/

/-- Dict branch of `_extract_custom_fields`: a present `value` key wins (by
presence, `"value" in value`), else a present `name` key, else the whole
object. -/
def custom_value_of_dict (kvs : List (String × Json)) : Json :=
  if (objLookup kvs "value").isSome then (objLookup kvs "value").getD .null
  else if (objLookup kvs "name").isSome then (objLookup kvs "name").getD .null
  else .obj kvs

/-- Per-element rule applied inside array-valued custom fields:
`v.get("value") or v.get("name") or v` — Python `or` picks the first truthy
operand, and `.get` raises on a non-dict element. -/
def custom_elem_rule (v : Json) : Except String Json := do
  let a ← pyGet v "value"
  if pyTruthy a then .ok a
  else do
    let b ← pyGet v "name"
    if pyTruthy b then .ok b else .ok v

/-- Projection of one non-null custom-field value: dicts via
`custom_value_of_dict`; non-empty lists whose first element is a dict map each
element through `custom_elem_rule`; everything else passes through unchanged. -/
def custom_field_value (v : Json) : Except String Json :=
  match v with
  | .obj kvs => .ok (custom_value_of_dict kvs)
  | .arr xs =>
    if xs.isEmpty then .ok v
    else match xs.head? with
      | some (.obj _) => (mapExcept custom_elem_rule xs).map (fun ys => Json.arr ys)
      | _ => .ok v
  | _ => .ok v

/-- Loop of `_extract_custom_fields` over `fields.items()`, accumulating the
`custom` dict: a field participates only if its key has the
`customfield_` prefix and its value is non-null. -/
def extract_custom_go (custom : List (String × Json)) :
    List (String × Json) → Except String (List (String × Json))
  | [] => .ok custom
  | (k, v) :: rest =>
    if strStartsWith k "customfield_" && !(jsonBeq v .null) then do
      let pv ← custom_field_value v
      extract_custom_go (assocSet custom k pv) rest
    else extract_custom_go custom rest

/-- Embeds `JiraScraper._extract_custom_fields`. -/
def extract_custom_fields (fields : List (String × Json)) :
    Except String (List (String × Json)) :=
  extract_custom_go [] fields

theorem assocSet_of_not_mem {d : List (String × Json)} {k : String} {v : Json}
    (h : k ∉ d.map Prod.fst) : assocSet d k v = d ++ [(k, v)] := by
  rw [assocSet, if_neg]
  intro hany
  rcases List.any_eq_true.mp hany with ⟨kv, hkv, heq⟩
  exact h (List.mem_map.mpr ⟨kv, hkv, by simpa using heq⟩)

theorem extract_custom_go_keys :
    ∀ (fields custom out : List (String × Json)),
      (custom.map Prod.fst ++ fields.map Prod.fst).Nodup →
      extract_custom_go custom fields = .ok out →
      out.map Prod.fst = custom.map Prod.fst ++
        (fields.filter
          (fun kv => strStartsWith kv.1 "customfield_" && !(jsonBeq kv.2 .null))).map Prod.fst := by
  intro fields
  induction fields with
  | nil =>
    intro custom out _ h
    simp only [extract_custom_go] at h
    cases h
    simp
  | cons kv rest ih =>
    intro custom out hnd h
    obtain ⟨k, v⟩ := kv
    simp only [extract_custom_go] at h
    by_cases hq : (strStartsWith k "customfield_" && !(jsonBeq v .null)) = true
    · rw [if_pos hq] at h
      cases hpv : custom_field_value v with
      | error e => rw [hpv] at h; simp [Bind.bind, Except.bind] at h
      | ok pv =>
        rw [hpv] at h
        simp only [Bind.bind, Except.bind] at h
        have hknotin : k ∉ custom.map Prod.fst := by
          intro hk
          have := List.disjoint_of_nodup_append hnd
          exact this hk (by simp) 
        rw [assocSet_of_not_mem hknotin] at h
        have hnd2 : ((custom ++ [(k, pv)]).map Prod.fst ++ rest.map Prod.fst).Nodup := by
          simp only [List.map_append, List.map_cons, List.map_nil] at hnd ⊢
          simpa [List.append_assoc] using hnd
        have := ih (custom ++ [(k, pv)]) out hnd2 h
        rw [this]
        simp [hq, List.append_assoc]
    · rw [if_neg hq] at h
      have hnd2 : (custom.map Prod.fst ++ rest.map Prod.fst).Nodup := by
        refine List.Nodup.sublist ?_ hnd
        exact List.Sublist.append_left (by simp) _
      have := ih custom out hnd2 h
      rw [this]
      simp [hq]

/-- C7 counterexample: the per-element rule inside arrays is truthiness-based
(`v.get("value") or v.get("name") or v`) while the object rule is
presence-based (`"value" in value`), so they are not the same rule: the object
value `{"value": ""}` normalizes to `""` on its own, but inside an array the
same object is kept raw. -/
theorem custom_field_elem_rule_cex :
    extract_custom_fields [("customfield_1", .arr [.obj [("value", .str "")]])] =
      .ok [("customfield_1", .arr [.obj [("value", .str "")]])] ∧
    extract_custom_fields [("customfield_1", .obj [("value", .str "")])] =
      .ok [("customfield_1", .str "")] ∧
    custom_elem_rule (.obj [("value", .str "")]) = .ok (.obj [("value", .str "")]) ∧
    custom_value_of_dict [("value", .str "")] = .str "" ∧
    Json.obj [("value", .str "")] ≠ .str "" :=
  ⟨rfl, rfl, rfl, rfl, by decide⟩

/-- C7 (amended): a raw field enters the custom-field mapping iff its key has
the `customfield_` prefix and its value is non-null (for dicts with distinct
keys); an object value prefers a present `value` key, then a present `name`
key, else is kept whole; scalars pass through unchanged; an array of objects
is mapped elementwise by the truthiness-based rule "first truthy of
`value`, `name`, else the raw element", which agrees with the object rule
whenever the element's `value`/`name` entries are absent or truthy (but not on
falsy ones). -/
theorem custom_field_projection :
    ∀ (fields out ekvs : List (String × Json)),
      (fields.map Prod.fst).Nodup →
      extract_custom_fields fields = .ok out →
      (objLookup ekvs "value" = none ∨ pyTruthy ((objLookup ekvs "value").getD .null) = true) →
      (objLookup ekvs "name" = none ∨ pyTruthy ((objLookup ekvs "name").getD .null) = true) →
      (out.map Prod.fst =
        (fields.filter
          (fun kv => strStartsWith kv.1 "customfield_" && !(jsonBeq kv.2 .null))).map Prod.fst) ∧
      custom_elem_rule (.obj ekvs) = .ok (custom_value_of_dict ekvs) ∧
      (extract_custom_fields [("customfield_1", .obj [("value", .str "High")])] =
        .ok [("customfield_1", .str "High")]) ∧
      (extract_custom_fields [("customfield_2", .obj [("name", .str "Gold")])] =
        .ok [("customfield_2", .str "Gold")]) ∧
      (extract_custom_fields [("customfield_3", .obj [("qty", .num 1)])] =
        .ok [("customfield_3", .obj [("qty", .num 1)])]) ∧
      (extract_custom_fields
          [("customfield_4", .arr [.obj [("value", .str "A")], .obj [("value", .str "B")]])] =
        .ok [("customfield_4", .arr [.str "A", .str "B"])]) ∧
      (extract_custom_fields [("customfield_5", .num 7), ("other_6", .str "x"),
          ("customfield_7", .null)] =
        .ok [("customfield_5", .num 7)]) := by
  intro fields out ekvs hnd hok hval hname
  refine ⟨extract_custom_go_keys fields [] out (by simpa using hnd) hok, ?_, rfl, rfl, rfl, rfl, rfl⟩
  rw [custom_elem_rule, custom_value_of_dict]
  cases hv : objLookup ekvs "value" with
  | some a =>
    have ha : pyTruthy a = true := by
      rcases hval with h | h
      · rw [hv] at h; cases h
      · rw [hv] at h; simpa using h
    simp [pyGet, hv, ha, Bind.bind, Except.bind]
  | none =>
    have h0 : pyTruthy .null = false := rfl
    cases hn : objLookup ekvs "name" with
    | some b =>
      have hb : pyTruthy b = true := by
        rcases hname with h | h
        · rw [hn] at h; cases h
        · rw [hn] at h; simpa using h
      simp [pyGet, hv, hn, h0, hb, Bind.bind, Except.bind]
    | none =>
      simp [pyGet, hv, hn, h0, Bind.bind, Except.bind]

/-- Witness for `custom_field_projection` at the `{"value": "High"}` example. -/
theorem custom_field_projection_witness :
    ([("customfield_1", Json.obj [("value", Json.str "High")])].map Prod.fst).Nodup ∧
    extract_custom_fields [("customfield_1", .obj [("value", .str "High")])] =
      .ok [("customfield_1", .str "High")] ∧
    custom_elem_rule (.obj [("value", .str "High")]) = .ok (.str "High") := by
  refine ⟨by decide, rfl, ?_⟩
  have h := custom_field_projection [("customfield_1", .obj [("value", .str "High")])]
    [("customfield_1", .str "High")] [("value", .str "High")] (by decide) rfl
    (Or.inr (by decide)) (Or.inl rfl)
  simpa using h.2.1

/-! ## Record normalization (`JiraScraper.process_issue` and its helpers)

The HTTP comments fetch inside `process_issue` is abstracted into the
`commentsJ` parameter (the value `get_issue_comments` returned), and
`datetime.now(...).isoformat()` into the `now` parameter.  The fallible
sub-computations are grouped into `gather_issue`; Python evaluates them in
the textual order of the dict literal, so grouping only affects which
exception surfaces first, never whether the call succeeds — and only the
ok/error distinction is relied on here. -/

/-- Embeds `JiraScraper.extract_user_info`: falsy input gives `None`, else the
`{accountId, displayName, emailAddress}` triple (raising on a truthy
non-dict). -/
def extract_user_info (user_data : Json) : Except String Json :=
  if pyTruthy user_data then do
    let u ← expectDict user_data
    Except.ok (.obj [("accountId", (objLookup u "accountId").getD .null),
                     ("displayName", (objLookup u "displayName").getD .null),
                     ("emailAddress", (objLookup u "emailAddress").getD .null)])
  else .ok .null

/-- Description extraction at the top of `process_issue`:
`fields.get("description", {})` flattened when it is a dict, else
`str(description) if description else ""`. -/
def description_text (fields : List (String × Json)) : Except String String :=
  let d := (objLookup fields "description").getD (.obj [])
  if d.isObj then adf_to_text d
  else .ok (if pyTruthy d then pyStr d else "")

/-- Scalar fields of `process_issue` that involve fallible nested `.get`
chains.  `status`/`issuetype`/`project` are accessed through
`fields.get(k, {}).get(...)` with no truthiness guard (so a present-but-null
value raises), while `priority`/`resolution`/`parent` are guarded by
`if fields.get(k)`. -/
structure ScalarParts where
  status_name : Json
  status_category : Json
  priority_name : Json
  issuetype_name : Json
  issuetype_subtask : Json
  project_key : Json
  project_name : Json
  resolution : Json
  parent : Json

def scalar_parts (fields : List (String × Json)) : Except String ScalarParts := do
  let statusJ := (objLookup fields "status").getD (.obj [])
  let status_name ← pyGet statusJ "name"
  let statusCatJ ← pyGetD statusJ "statusCategory" (.obj [])
  let status_category ← pyGet statusCatJ "name"
  let priority_name ←
    if pyTruthy ((objLookup fields "priority").getD .null) then
      pyGet ((objLookup fields "priority").getD (.obj [])) "name"
    else Except.ok .null
  let issuetypeJ := (objLookup fields "issuetype").getD (.obj [])
  let issuetype_name ← pyGet issuetypeJ "name"
  let issuetype_subtask ← pyGet issuetypeJ "subtask"
  let projectJ := (objLookup fields "project").getD (.obj [])
  let project_key ← pyGet projectJ "key"
  let project_name ← pyGet projectJ "name"
  let resolution ←
    if pyTruthy ((objLookup fields "resolution").getD .null) then
      pyGet ((objLookup fields "resolution").getD (.obj [])) "name"
    else Except.ok .null
  let parent ←
    if pyTruthy ((objLookup fields "parent").getD .null) then do
      let parentJ := (objLookup fields "parent").getD (.obj [])
      let pkey ← pyGet parentJ "key"
      let pfieldsJ ← pyGetD parentJ "fields" (.obj [])
      let psummary ← pyGet pfieldsJ "summary"
      Except.ok (Json.obj [("key", pkey), ("summary", psummary)])
    else Except.ok .null
  Except.ok ⟨status_name, status_category, priority_name, issuetype_name, issuetype_subtask,
             project_key, project_name, resolution, parent⟩

structure UserParts where
  creator : Json
  reporter : Json
  assignee : Json

def user_parts (fields : List (String × Json)) : Except String UserParts := do
  let creator ← extract_user_info ((objLookup fields "creator").getD .null)
  let reporter ← extract_user_info ((objLookup fields "reporter").getD .null)
  let assignee ← extract_user_info ((objLookup fields "assignee").getD .null)
  Except.ok ⟨creator, reporter, assignee⟩

/-- Embeds `JiraScraper.extract_comment_info`: flattens the body when it is a
dict (else `str(body)` — note a `None` body becomes the string "None"), and
keeps the raw body verbatim in `bodyRaw`. -/
def extract_comment_info (comment : Json) : Except String Json := do
  let c ← expectDict comment
  let bodyJ := (objLookup c "body").getD (.obj [])
  let body_text ← if bodyJ.isObj then adf_to_text bodyJ else Except.ok (pyStr bodyJ)
  let author ← extract_user_info ((objLookup c "author").getD .null)
  Except.ok (.obj [("id", (objLookup c "id").getD .null),
                   ("author", author),
                   ("body", .str body_text),
                   ("bodyRaw", (objLookup c "body").getD .null),
                   ("created", (objLookup c "created").getD .null),
                   ("updated", (objLookup c "updated").getD .null)])

def extract_changelog_item (history_kvs : List (String × Json)) (item : Json) :
    Except String Json := do
  let it ← expectDict item
  let author ← extract_user_info ((objLookup history_kvs "author").getD .null)
  Except.ok (.obj [("field", (objLookup it "field").getD .null),
                   ("fieldtype", (objLookup it "fieldtype").getD .null),
                   ("from", (objLookup it "fromString").getD .null),
                   ("to", (objLookup it "toString").getD .null),
                   ("author", author),
                   ("created", (objLookup history_kvs "created").getD .null)])

def extract_changelog_history (history : Json) : Except String (List Json) := do
  let h ← expectDict history
  let items ← asIterable ((objLookup h "items").getD (.arr []))
  mapExcept (extract_changelog_item h) items

/-- Embeds `JiraScraper.extract_changelog`: one flat ChangeEvent per item of
every history entry, inheriting the entry's author and timestamp. -/
def extract_changelog (issue : Json) : Except String (List Json) := do
  let d ← expectDict issue
  let changelogJ := (objLookup d "changelog").getD (.obj [])
  let historiesJ ← pyGetD changelogJ "histories" (.arr [])
  let histories ← asIterable historiesJ
  let nested ← mapExcept extract_changelog_history histories
  Except.ok nested.flatten

/-- Array-valued parts of `process_issue` (components, fix/affects versions,
subtasks, links), each built by a list comprehension over a
`fields.get(k, [])`. -/
structure CollParts where
  components : List Json
  fixVersions : List Json
  affectsVersions : List Json
  subtasks : List Json
  links : List Json

def coll_parts (fields : List (String × Json)) : Except String CollParts := do
  let componentsL ← asIterable ((objLookup fields "components").getD (.arr []))
  let components ← mapExcept (fun c => pyGet c "name") componentsL
  let fixL ← asIterable ((objLookup fields "fixVersions").getD (.arr []))
  let fixVersions ← mapExcept (fun v => pyGet v "name") fixL
  let affL ← asIterable ((objLookup fields "versions").getD (.arr []))
  let affectsVersions ← mapExcept (fun v => pyGet v "name") affL
  let subtasksL ← asIterable ((objLookup fields "subtasks").getD (.arr []))
  let subtasks ← mapExcept (fun st => do
      let stD ← expectDict st
      let stFieldsJ := (objLookup stD "fields").getD (.obj [])
      let stSummary ← pyGet stFieldsJ "summary"
      Except.ok (Json.obj [("key", (objLookup stD "key").getD .null),
                           ("summary", stSummary)])) subtasksL
  let linksL ← asIterable ((objLookup fields "issuelinks").getD (.arr []))
  let links ← mapExcept (fun link => do
      let l ← expectDict link
      let tname ← pyGet ((objLookup l "type").getD (.obj [])) "name"
      let ikey ← pyGet ((objLookup l "inwardIssue").getD (.obj [])) "key"
      let okey ← pyGet ((objLookup l "outwardIssue").getD (.obj [])) "key"
      Except.ok (Json.obj [("type", tname), ("inward", ikey), ("outward", okey)])) linksL
  Except.ok ⟨components, fixVersions, affectsVersions, subtasks, links⟩

structure IssueParts where
  issueDict : List (String × Json)
  fields : List (String × Json)
  descr : String
  scalars : ScalarParts
  users : UserParts
  commentInfos : List Json
  changelog : List Json
  colls : CollParts
  custom : List (String × Json)

def gather_issue (issue commentsJ : Json) : Except String IssueParts := do
  let d ← expectDict issue
  let f ← expectDict ((objLookup d "fields").getD (.obj []))
  let descr ← description_text f
  let scalars ← scalar_parts f
  let users ← user_parts f
  let commentsL ← asIterable commentsJ
  let commentInfos ← mapExcept extract_comment_info commentsL
  let changelog ← extract_changelog issue
  let colls ← coll_parts f
  let custom ← extract_custom_fields f
  Except.ok ⟨d, f, descr, scalars, users, commentInfos, changelog, colls, custom⟩

/-- Pure construction of the normalized record, in the field order of the
source's dict literal. -/
def assemble_issue (g : IssueParts) (now : String) : Json :=
  .obj [
    ("key", (objLookup g.issueDict "key").getD .null),
    ("id", (objLookup g.issueDict "id").getD .null),
    ("self", (objLookup g.issueDict "self").getD .null),
    ("summary", (objLookup g.fields "summary").getD .null),
    ("description", .str g.descr),
    ("descriptionRaw", (objLookup g.fields "description").getD .null),
    ("status", .obj [("name", g.scalars.status_name), ("category", g.scalars.status_category)]),
    ("priority", .obj [("name", g.scalars.priority_name)]),
    ("issueType", .obj [("name", g.scalars.issuetype_name),
                        ("subtask", g.scalars.issuetype_subtask)]),
    ("project", .obj [("key", g.scalars.project_key), ("name", g.scalars.project_name)]),
    ("creator", g.users.creator),
    ("reporter", g.users.reporter),
    ("assignee", g.users.assignee),
    ("created", (objLookup g.fields "created").getD .null),
    ("updated", (objLookup g.fields "updated").getD .null),
    ("resolved", (objLookup g.fields "resolutiondate").getD .null),
    ("resolution", g.scalars.resolution),
    ("labels", (objLookup g.fields "labels").getD (.arr [])),
    ("components", .arr g.colls.components),
    ("fixVersions", .arr g.colls.fixVersions),
    ("affectsVersions", .arr g.colls.affectsVersions),
    ("comments", .arr g.commentInfos),
    ("changelog", .arr g.changelog),
    ("subtasks", .arr g.colls.subtasks),
    ("parent", g.scalars.parent),
    ("links", .arr g.colls.links),
    ("customFields", .obj g.custom),
    ("_exportedAt", .str now)
  ]

/-- Embeds `JiraScraper.process_issue`. -/
def process_issue (issue commentsJ : Json) (now : String) : Except String Json :=
  (gather_issue issue commentsJ).map (fun g => assemble_issue g now)

/-- C6 counterexample: a raw record whose `fields.status` is present but null
makes `process_issue` raise (`fields.get("status", {})` keeps the null and the
following `.get("name")` is an attribute access on `None`), instead of
yielding null for the status scalars as the claim states. -/
theorem normalize_null_status_cex :
    process_issue (.obj [("fields", .obj [("status", .null)])]) (.arr []) "t" =
      .error "AttributeError" := rfl


/-! ## Bind-inversion helpers for `Except` -/

theorem bind_eq_ok {x : Except String α} {f : α → Except String β} {b : β} :
    x >>= f = .ok b ↔ ∃ a, x = .ok a ∧ f a = .ok b := by
  cases x <;> simp [Bind.bind, Except.bind]

theorem map_eq_ok {x : Except String α} {f : α → β} {b : β} :
    x.map f = .ok b ↔ ∃ a, x = .ok a ∧ f a = b := by
  cases x <;> simp [Except.map]

theorem expectDict_ok : ∀ {j : Json} {kvs : List (String × Json)},
    expectDict j = .ok kvs → j = .obj kvs := by
  intro j kvs h
  cases j <;> simp [expectDict] at h
  rw [h]

theorem mapExcept_mem_ok {f : α → Except String β} :
    ∀ {xs : List α} {ys : List β}, mapExcept f xs = .ok ys →
      ∀ y ∈ ys, ∃ x, f x = .ok y := by
  intro xs
  induction xs with
  | nil =>
    intro ys h y hy
    simp [mapExcept] at h
    subst h
    simp at hy
  | cons x rest ih =>
    intro ys h y hy
    simp only [mapExcept, bind_eq_ok] at h
    obtain ⟨a, ha, as, has, hok⟩ := h
    cases hok
    rcases List.mem_cons.mp hy with rfl | hmem
    · exact ⟨x, ha⟩
    · exact ih has y hmem

/-- C6 (amended): normalization yields null scalars and never raises for EVERY
record in which the optional nested objects are defensively absent: status,
issue-type and project absent from the fields dict or present as objects
lacking the nested keys; priority absent, null, or an object lacking `name`
(it is truthiness-guarded); resolution and parent absent or null (also
guarded).  The scalar extraction succeeds with all-null parts, and any
successful normalization of such a record carries null at the corresponding
record paths.  A present-but-null status, issue-type or project, however,
raises (`normalize_null_status_cex`). -/
theorem normalize_defensive_absence (f : List (String × Json))
    (hstatus : objLookup f "status" = none ∨
      ∃ s, objLookup f "status" = some (.obj s) ∧
        objLookup s "name" = none ∧ objLookup s "statusCategory" = none)
    (hissuetype : objLookup f "issuetype" = none ∨
      ∃ it, objLookup f "issuetype" = some (.obj it) ∧
        objLookup it "name" = none ∧ objLookup it "subtask" = none)
    (hproject : objLookup f "project" = none ∨
      ∃ pr, objLookup f "project" = some (.obj pr) ∧
        objLookup pr "key" = none ∧ objLookup pr "name" = none)
    (hpriority : objLookup f "priority" = none ∨ objLookup f "priority" = some .null ∨
      ∃ pv, objLookup f "priority" = some (.obj pv) ∧ objLookup pv "name" = none)
    (hresolution : objLookup f "resolution" = none ∨ objLookup f "resolution" = some .null)
    (hparent : objLookup f "parent" = none ∨ objLookup f "parent" = some .null) :
    scalar_parts f =
      .ok ⟨.null, .null, .null, .null, .null, .null, .null, .null, .null⟩ ∧
    ∀ (d : List (String × Json)) (commentsJ : Json) (now : String) (p : Json),
      (objLookup d "fields").getD (.obj []) = .obj f →
      process_issue (.obj d) commentsJ now = .ok p →
      jPath p ["status", "name"] = some .null ∧
      jPath p ["status", "category"] = some .null ∧
      jPath p ["priority", "name"] = some .null ∧
      jPath p ["issueType", "name"] = some .null ∧
      jPath p ["issueType", "subtask"] = some .null ∧
      jPath p ["project", "key"] = some .null ∧
      jPath p ["project", "name"] = some .null ∧
      jGet p "resolution" = some .null ∧
      jGet p "parent" = some .null := by
  have hs1 : pyGet ((objLookup f "status").getD (.obj [])) "name" = .ok .null := by
    rcases hstatus with hs | ⟨s, hs, hsn, hsc⟩
    · simp [hs, pyGet, objLookup]
    · simp [hs, pyGet, hsn]
  have hs2 : pyGetD ((objLookup f "status").getD (.obj [])) "statusCategory" (.obj []) =
      .ok (.obj []) := by
    rcases hstatus with hs | ⟨s, hs, hsn, hsc⟩
    · simp [hs, pyGetD, objLookup]
    · simp [hs, pyGetD, hsc]
  have hs3 : pyGet (Json.obj []) "name" = Except.ok Json.null := rfl
  have hi1 : pyGet ((objLookup f "issuetype").getD (.obj [])) "name" = .ok .null := by
    rcases hissuetype with hi | ⟨it, hi, hin, his⟩
    · simp [hi, pyGet, objLookup]
    · simp [hi, pyGet, hin]
  have hi2 : pyGet ((objLookup f "issuetype").getD (.obj [])) "subtask" = .ok .null := by
    rcases hissuetype with hi | ⟨it, hi, hin, his⟩
    · simp [hi, pyGet, objLookup]
    · simp [hi, pyGet, his]
  have hpj1 : pyGet ((objLookup f "project").getD (.obj [])) "key" = .ok .null := by
    rcases hproject with hp | ⟨pr, hp, hpk, hpn⟩
    · simp [hp, pyGet, objLookup]
    · simp [hp, pyGet, hpk]
  have hpj2 : pyGet ((objLookup f "project").getD (.obj [])) "name" = .ok .null := by
    rcases hproject with hp | ⟨pr, hp, hpk, hpn⟩
    · simp [hp, pyGet, objLookup]
    · simp [hp, pyGet, hpn]
  have hscal : scalar_parts f =
      .ok ⟨.null, .null, .null, .null, .null, .null, .null, .null, .null⟩ := by
    have hpt : pyTruthy Json.null = false := rfl
    rcases hresolution with hr | hr <;> rcases hparent with hpa | hpa <;>
      rcases hpriority with hp | hp | ⟨pv, hp, hpn⟩
    all_goals
      first
        | (simp [scalar_parts, hs1, hs2, hs3, hi1, hi2, hpj1, hpj2, hp, hr, hpa, hpt,
                 Bind.bind, Except.bind]
           done)
        | (have hpv : pyGet (Json.obj pv) "name" = Except.ok Json.null := by
             simp [pyGet, hpn]
           have hptv : pyTruthy (Json.obj pv) = !pv.isEmpty := rfl
           rcases Bool.eq_false_or_eq_true pv.isEmpty with he | he <;>
             simp [scalar_parts, hs1, hs2, hs3, hi1, hi2, hpj1, hpj2, hp, hpv, hptv, he,
                   hr, hpa, hpt, Bind.bind, Except.bind])
  refine ⟨hscal, ?_⟩
  intro d commentsJ now p hfld hok
  simp only [process_issue, map_eq_ok] at hok
  obtain ⟨g, hg, hp2⟩ := hok
  simp only [gather_issue, bind_eq_ok] at hg
  obtain ⟨dk, hdk, f0, hf0, descr0, hdescr, sc, hsc2, us, hus, cL, hcL, ci, hci,
          chg, hchg, co, hco, cu, hcu, hgok⟩ := hg
  cases hgok
  subst hp2
  have h2d := expectDict_ok hdk
  injection h2d with h3d
  subst h3d
  rw [hfld] at hf0
  have h4 := expectDict_ok hf0
  injection h4 with h5
  subst h5
  rw [hscal] at hsc2
  cases hsc2
  exact ⟨rfl, rfl, rfl, rfl, rfl, rfl, rfl, rfl, rfl⟩

/-- Witness: `normalize_defensive_absence` applied at the concrete record
whose fields dict is `{"priority": null}` (status, issue-type, project,
resolution and parent absent; priority present but null). -/
theorem normalize_defensive_absence_witness :
    scalar_parts [("priority", Json.null)] =
      .ok ⟨.null, .null, .null, .null, .null, .null, .null, .null, .null⟩ ∧
    ∃ p, process_issue (.obj [("fields", .obj [("priority", Json.null)])]) (.arr []) "t" =
        .ok p ∧
      jPath p ["status", "name"] = some .null ∧
      jPath p ["priority", "name"] = some .null ∧
      jGet p "resolution" = some .null ∧
      jGet p "parent" = some .null := by
  have h := normalize_defensive_absence [("priority", Json.null)]
    (Or.inl rfl) (Or.inl rfl) (Or.inl rfl) (Or.inr (Or.inl rfl)) (Or.inl rfl) (Or.inl rfl)
  have h2 := h.2 [("fields", .obj [("priority", Json.null)])] (.arr []) "t" _ rfl rfl
  exact ⟨h.1, _, rfl, h2.1, h2.2.2.1, h2.2.2.2.2.2.2.2.1, h2.2.2.2.2.2.2.2.2⟩

/-! ## Storage layer (`JiraDatabase`)

A `Store` models one SQLite database created by `_create_tables`: the five
base tables plus the external-content FTS5 index `tickets_fts`.  Row ids for
`tickets` are modelled by the monotone counter `nextRowid` (SQLite assigns
max-plus-one rowids, and this schema never empties the table, so rowids never
get reused).  The `AFTER INSERT` trigger `tickets_ai` fires on every insert,
including the insert half of `INSERT OR REPLACE`; the `AFTER DELETE` trigger
`tickets_ad` does NOT fire for rows displaced by the REPLACE conflict
resolution, because SQLite only fires delete triggers for REPLACE when the
`recursive_triggers` pragma is on, and the code never enables it.  The
AUTOINCREMENT surrogate ids of changelog/links/subtasks are omitted (nothing
reads them); `comments.id` is a TEXT PRIMARY KEY and is checked on insert
(NULL primary keys are allowed and never conflict — SQLite's legacy
behavior).  A Python exception before `conn.commit()` leaves the committed
store unchanged, so an erroring insert is modelled as no state change. -/

/-- Embeds the `get_user_field` helper inside `insert_ticket`: the guard is
`if user_dict is None` (identity with None, not truthiness). -/
def get_user_field (u : Json) (field : String) : Except String Json :=
  if u = .null then .ok .null else pyGet u field

/-- Values of the 34 `tickets` columns bound by `insert_ticket`.  Columns fed
through `json.dumps` are stored as `String` (SQL TEXT); the rest keep their
Python value (`Json.null` binds SQL NULL). -/
structure TicketCols where
  key : Json
  id : Json
  summary : Json
  description : Json
  description_raw : String
  status : Json
  status_category : Json
  priority : Json
  issue_type : Json
  is_subtask : Json
  project_key : Json
  project_name : Json
  creator_id : Json
  creator_name : Json
  creator_email : Json
  reporter_id : Json
  reporter_name : Json
  reporter_email : Json
  assignee_id : Json
  assignee_name : Json
  assignee_email : Json
  created : Json
  updated : Json
  resolved : Json
  resolution : Json
  labels : String
  components : String
  fix_versions : String
  affects_versions : String
  parent_key : Json
  parent_summary : Json
  custom_fields : String
  raw_json : String
  exported_at : Json
  deriving DecidableEq

/-- Fallible column computations of `insert_ticket` (guarded nested `.get`
chains and the nine `get_user_field` calls). -/
structure TicketColParts where
  status_name : Json
  status_category : Json
  priority_name : Json
  issue_type : Json
  is_subtask : Json
  project_key : Json
  project_name : Json
  creator_id : Json
  creator_name : Json
  creator_email : Json
  reporter_id : Json
  reporter_name : Json
  reporter_email : Json
  assignee_id : Json
  assignee_name : Json
  assignee_email : Json
  parent_key : Json
  parent_summary : Json

def ticket_col_parts (t : List (String × Json)) : Except String TicketColParts := do
  let status_name ←
    if pyTruthy ((objLookup t "status").getD .null) then
      pyGet ((objLookup t "status").getD (.obj [])) "name"
    else Except.ok .null
  let status_category ←
    if pyTruthy ((objLookup t "status").getD .null) then
      pyGet ((objLookup t "status").getD (.obj [])) "category"
    else Except.ok .null
  let priority_name ←
    if pyTruthy ((objLookup t "priority").getD .null) then
      pyGet ((objLookup t "priority").getD (.obj [])) "name"
    else Except.ok .null
  let issue_type ←
    if pyTruthy ((objLookup t "issueType").getD .null) then
      pyGet ((objLookup t "issueType").getD (.obj [])) "name"
    else Except.ok .null
  let subtaskFlag ← pyGet ((objLookup t "issueType").getD (.obj [])) "subtask"
  let project_key ←
    if pyTruthy ((objLookup t "project").getD .null) then
      pyGet ((objLookup t "project").getD (.obj [])) "key"
    else Except.ok .null
  let project_name ←
    if pyTruthy ((objLookup t "project").getD .null) then
      pyGet ((objLookup t "project").getD (.obj [])) "name"
    else Except.ok .null
  let creator_id ← get_user_field ((objLookup t "creator").getD .null) "accountId"
  let creator_name ← get_user_field ((objLookup t "creator").getD .null) "displayName"
  let creator_email ← get_user_field ((objLookup t "creator").getD .null) "emailAddress"
  let reporter_id ← get_user_field ((objLookup t "reporter").getD .null) "accountId"
  let reporter_name ← get_user_field ((objLookup t "reporter").getD .null) "displayName"
  let reporter_email ← get_user_field ((objLookup t "reporter").getD .null) "emailAddress"
  let assignee_id ← get_user_field ((objLookup t "assignee").getD .null) "accountId"
  let assignee_name ← get_user_field ((objLookup t "assignee").getD .null) "displayName"
  let assignee_email ← get_user_field ((objLookup t "assignee").getD .null) "emailAddress"
  let parent_key ←
    if pyTruthy ((objLookup t "parent").getD .null) then
      pyGet ((objLookup t "parent").getD (.obj [])) "key"
    else Except.ok .null
  let parent_summary ←
    if pyTruthy ((objLookup t "parent").getD .null) then
      pyGet ((objLookup t "parent").getD (.obj [])) "summary"
    else Except.ok .null
  Except.ok ⟨status_name, status_category, priority_name, issue_type,
             (if pyTruthy subtaskFlag then Json.num 1 else Json.num 0),
             project_key, project_name,
             creator_id, creator_name, creator_email,
             reporter_id, reporter_name, reporter_email,
             assignee_id, assignee_name, assignee_email,
             parent_key, parent_summary⟩

/-- Pure assembly of the `tickets` row from the ticket dict and the fallible
parts, mirroring the bind order of the `INSERT OR REPLACE INTO tickets`. -/
def mk_ticket_cols (ticket : Json) (t : List (String × Json)) (p : TicketColParts) :
    TicketCols :=
  { key := (objLookup t "key").getD .null,
    id := (objLookup t "id").getD .null,
    summary := (objLookup t "summary").getD .null,
    description := (objLookup t "description").getD .null,
    description_raw := jsonDumps ((objLookup t "descriptionRaw").getD .null),
    status := p.status_name,
    status_category := p.status_category,
    priority := p.priority_name,
    issue_type := p.issue_type,
    is_subtask := p.is_subtask,
    project_key := p.project_key,
    project_name := p.project_name,
    creator_id := p.creator_id,
    creator_name := p.creator_name,
    creator_email := p.creator_email,
    reporter_id := p.reporter_id,
    reporter_name := p.reporter_name,
    reporter_email := p.reporter_email,
    assignee_id := p.assignee_id,
    assignee_name := p.assignee_name,
    assignee_email := p.assignee_email,
    created := (objLookup t "created").getD .null,
    updated := (objLookup t "updated").getD .null,
    resolved := (objLookup t "resolved").getD .null,
    resolution := (objLookup t "resolution").getD .null,
    labels := jsonDumps ((objLookup t "labels").getD (.arr [])),
    components := jsonDumps ((objLookup t "components").getD (.arr [])),
    fix_versions := jsonDumps ((objLookup t "fixVersions").getD (.arr [])),
    affects_versions := jsonDumps ((objLookup t "affectsVersions").getD (.arr [])),
    parent_key := p.parent_key,
    parent_summary := p.parent_summary,
    custom_fields := jsonDumps ((objLookup t "customFields").getD (.obj [])),
    raw_json := jsonDumps ticket,
    exported_at := (objLookup t "_exportedAt").getD .null }

structure CommentRow where
  id : Json
  ticket_key : Json
  author_id : Json
  author_name : Json
  author_email : Json
  body : Json
  body_raw : String
  created : Json
  updated : Json
  deriving DecidableEq

structure ChangelogRow where
  ticket_key : Json
  field : Json
  field_type : Json
  from_value : Json
  to_value : Json
  author_id : Json
  author_name : Json
  author_email : Json
  created : Json
  deriving DecidableEq

structure LinkRow where
  ticket_key : Json
  link_type : Json
  inward_key : Json
  outward_key : Json
  deriving DecidableEq

structure SubtaskRow where
  ticket_key : Json
  subtask_key : Json
  subtask_summary : Json
  deriving DecidableEq

structure CommentRowParts where
  ckvs : List (String × Json)
  author_id : Json
  author_name : Json
  author_email : Json

def comment_row_parts (comment : Json) : Except String CommentRowParts := do
  let c ← expectDict comment
  let aid ← get_user_field ((objLookup c "author").getD .null) "accountId"
  let aname ← get_user_field ((objLookup c "author").getD .null) "displayName"
  let aemail ← get_user_field ((objLookup c "author").getD .null) "emailAddress"
  Except.ok ⟨c, aid, aname, aemail⟩

def build_comment_row (tkey : Json) (comment : Json) : Except String CommentRow :=
  (comment_row_parts comment).map (fun p =>
    { id := (objLookup p.ckvs "id").getD .null,
      ticket_key := tkey,
      author_id := p.author_id,
      author_name := p.author_name,
      author_email := p.author_email,
      body := (objLookup p.ckvs "body").getD .null,
      body_raw := jsonDumps ((objLookup p.ckvs "bodyRaw").getD .null),
      created := (objLookup p.ckvs "created").getD .null,
      updated := (objLookup p.ckvs "updated").getD .null })

def build_changelog_row (tkey : Json) (change : Json) : Except String ChangelogRow :=
  (comment_row_parts change).map (fun p =>
    { ticket_key := tkey,
      field := (objLookup p.ckvs "field").getD .null,
      field_type := (objLookup p.ckvs "fieldtype").getD .null,
      from_value := (objLookup p.ckvs "from").getD .null,
      to_value := (objLookup p.ckvs "to").getD .null,
      author_id := p.author_id,
      author_name := p.author_name,
      author_email := p.author_email,
      created := (objLookup p.ckvs "created").getD .null })

def build_link_row (tkey : Json) (link : Json) : Except String LinkRow :=
  (expectDict link).map (fun l =>
    { ticket_key := tkey,
      link_type := (objLookup l "type").getD .null,
      inward_key := (objLookup l "inward").getD .null,
      outward_key := (objLookup l "outward").getD .null })

def build_subtask_row (tkey : Json) (st : Json) : Except String SubtaskRow :=
  (expectDict st).map (fun s =>
    { ticket_key := tkey,
      subtask_key := (objLookup s "key").getD .null,
      subtask_summary := (objLookup s "summary").getD .null })

/-- Everything `insert_ticket` derives from the ticket dict before touching
the store. -/
structure InsertData where
  cols : TicketCols
  comments : List CommentRow
  changelog : List ChangelogRow
  links : List LinkRow
  subtasks : List SubtaskRow

def build_insert (ticket : Json) : Except String InsertData := do
  let t ← expectDict ticket
  let parts ← ticket_col_parts t
  let tkey := (objLookup t "key").getD .null
  let commentsL ← asIterable ((objLookup t "comments").getD (.arr []))
  let comments ← mapExcept (build_comment_row tkey) commentsL
  let changelogL ← asIterable ((objLookup t "changelog").getD (.arr []))
  let changelog ← mapExcept (build_changelog_row tkey) changelogL
  let linksL ← asIterable ((objLookup t "links").getD (.arr []))
  let links ← mapExcept (build_link_row tkey) linksL
  let subtasksL ← asIterable ((objLookup t "subtasks").getD (.arr []))
  let subtasks ← mapExcept (build_subtask_row tkey) subtasksL
  Except.ok ⟨mk_ticket_cols ticket t parts, comments, changelog, links, subtasks⟩

structure TicketRow where
  rowid : Nat
  cols : TicketCols
  deriving DecidableEq

/-- One logical entry of the `tickets_fts` index: the rowid it is keyed on and
the `key`/`summary`/`description` values that were tokenized when the
`tickets_ai` trigger inserted it. -/
structure FtsEntry where
  rowid : Nat
  key : Json
  summary : Json
  description : Json
  deriving DecidableEq

structure Store where
  nextRowid : Nat
  tickets : List TicketRow
  comments : List CommentRow
  changelog : List ChangelogRow
  links : List LinkRow
  subtasks : List SubtaskRow
  fts : List FtsEntry
  deriving DecidableEq

def emptyStore : Store := ⟨1, [], [], [], [], [], []⟩

/-- SQL `=` between two stored values: NULL never compares equal to anything,
including NULL. -/
def sqlEqB (a b : Json) : Bool := !(jsonBeq a .null) && !(jsonBeq b .null) && jsonBeq a b

/-- The `tickets_ai` trigger's index entry for a tickets row. -/
def ftsRowOf (r : TicketRow) : FtsEntry := ⟨r.rowid, r.cols.key, r.cols.summary, r.cols.description⟩

/-- Sequential `INSERT INTO comments` honoring the TEXT PRIMARY KEY on `id`:
a non-NULL id equal to an already-present id raises `IntegrityError`. -/
def insert_comments (existing : List CommentRow) :
    List CommentRow → Except String (List CommentRow)
  | [] => .ok existing
  | r :: rest =>
    if !(jsonBeq r.id .null) && existing.any (fun e => jsonBeq e.id r.id) then
      .error "IntegrityError"
    else insert_comments (existing ++ [r]) rest

/-- The state produced by one successful `insert_ticket`: REPLACE the tickets
row (appending the new row with a fresh rowid and silently deleting rows whose
`key` compares SQL-equal; the displaced row's FTS delete trigger does not fire
— see the section comment — while the insert trigger appends the new row's
index entry), delete the key's child rows and append the freshly built ones
(`comments1` is the checked result of `insert_comments`). -/
def applied_insert (s : Store) (d : InsertData) (comments1 : List CommentRow) : Store :=
  { nextRowid := s.nextRowid + 1,
    tickets := s.tickets.filter (fun r => !(sqlEqB r.cols.key d.cols.key)) ++
      [⟨s.nextRowid, d.cols⟩],
    comments := comments1,
    changelog := s.changelog.filter (fun c => !(sqlEqB c.ticket_key d.cols.key)) ++ d.changelog,
    links := s.links.filter (fun c => !(sqlEqB c.ticket_key d.cols.key)) ++ d.links,
    subtasks := s.subtasks.filter (fun c => !(sqlEqB c.ticket_key d.cols.key)) ++ d.subtasks,
    fts := s.fts ++ [ftsRowOf ⟨s.nextRowid, d.cols⟩] }

/-- Embeds `JiraDatabase.insert_ticket`. -/
def insert_ticket (ticket : Json) (s : Store) : Except String Store := do
  let d ← build_insert ticket
  let comments1 ← insert_comments
    (s.comments.filter (fun c => !(sqlEqB c.ticket_key d.cols.key))) d.comments
  Except.ok (applied_insert s d comments1)

/-- Embeds `JiraDatabase.rebuild_fts` (the `optimize` path): the
`INSERT INTO tickets_fts(tickets_fts) VALUES('rebuild')` command re-derives
the index exactly from the current content table. -/
def rebuild_fts (s : Store) : Store := { s with fts := s.tickets.map ftsRowOf }

theorem sqlEqB_refl {k : Json} (h : k ≠ .null) : sqlEqB k k = true := by
  simp [sqlEqB, jsonBeq_refl, jsonBeq_eq_false_of_ne h]

theorem insert_comments_ok :
    ∀ {new existing out : List CommentRow},
      insert_comments existing new = .ok out → out = existing ++ new := by
  intro new
  induction new with
  | nil =>
    intro e o h
    simp only [insert_comments] at h
    cases h
    simp
  | cons r rest ih =>
    intro e o h
    simp only [insert_comments] at h
    split at h
    · cases h
    · have := ih h
      simpa [List.append_assoc] using this

theorem build_insert_children_key {t : Json} {d : InsertData} (h : build_insert t = .ok d) :
    (∀ r ∈ d.comments, r.ticket_key = d.cols.key) ∧
    (∀ r ∈ d.changelog, r.ticket_key = d.cols.key) ∧
    (∀ r ∈ d.links, r.ticket_key = d.cols.key) ∧
    (∀ r ∈ d.subtasks, r.ticket_key = d.cols.key) := by
  simp only [build_insert, bind_eq_ok] at h
  obtain ⟨tk, htk, parts, hparts, cL, hcL, cs, hcs, gL, hgL, gs, hgs,
          lL, hlL, ls, hls, sL, hsL, ss, hss, hok⟩ := h
  cases hok
  refine ⟨?_, ?_, ?_, ?_⟩
  · intro r hr
    obtain ⟨c, hc⟩ := mapExcept_mem_ok hcs r hr
    obtain ⟨p, _, hmk⟩ := map_eq_ok.mp hc
    rw [← hmk]
    rfl
  · intro r hr
    obtain ⟨c, hc⟩ := mapExcept_mem_ok hgs r hr
    obtain ⟨p, _, hmk⟩ := map_eq_ok.mp hc
    rw [← hmk]
    rfl
  · intro r hr
    obtain ⟨c, hc⟩ := mapExcept_mem_ok hls r hr
    obtain ⟨p, _, hmk⟩ := map_eq_ok.mp hc
    rw [← hmk]
    rfl
  · intro r hr
    obtain ⟨c, hc⟩ := mapExcept_mem_ok hss r hr
    obtain ⟨p, _, hmk⟩ := map_eq_ok.mp hc
    rw [← hmk]
    rfl

theorem filter_of_filter_not (l : List α) (p : α → Bool) :
    (l.filter (fun a => !(p a))).filter p = [] := by
  refine List.filter_eq_nil_iff.mpr ?_
  intro a ha
  have h2 := (List.mem_filter.mp ha).2
  simp only [Bool.not_eq_true'] at h2
  simp [h2]

/-- C1: upsert is idempotent.  Ingesting the same built record twice (with a
non-NULL key) leaves exactly one `tickets` row for that key, and the per-key
comment/changelog/link/subtask row counts after the second ingestion equal
the row counts the second ingestion alone inserts (the sizes of the record's
own child collections), not the sum of both ingestions. -/
theorem upsert_idempotent :
    ∀ (t : Json) (s s₁ s₂ : Store) (d : InsertData),
      build_insert t = .ok d →
      d.cols.key ≠ .null →
      insert_ticket t s = .ok s₁ →
      insert_ticket t s₁ = .ok s₂ →
      (s₂.tickets.filter (fun r => sqlEqB r.cols.key d.cols.key)).length = 1 ∧
      (s₂.comments.filter (fun c => sqlEqB c.ticket_key d.cols.key)).length =
        d.comments.length ∧
      (s₂.changelog.filter (fun c => sqlEqB c.ticket_key d.cols.key)).length =
        d.changelog.length ∧
      (s₂.links.filter (fun c => sqlEqB c.ticket_key d.cols.key)).length = d.links.length ∧
      (s₂.subtasks.filter (fun c => sqlEqB c.ticket_key d.cols.key)).length =
        d.subtasks.length := by
  intro t s s₁ s₂ d hbuild hkey h1 h2
  obtain ⟨hcom, hchg, hlnk, hsub⟩ := build_insert_children_key hbuild
  have hrefl : sqlEqB d.cols.key d.cols.key = true := sqlEqB_refl hkey
  simp only [insert_ticket, hbuild, bind_eq_ok] at h2
  obtain ⟨d2, hd2, c1, hc1, hok⟩ := h2
  cases hd2
  cases hok
  simp only [applied_insert]
  have hc1eq := insert_comments_ok hc1
  subst hc1eq
  have hchild : ∀ (rows : List CommentRow),
      (∀ r ∈ rows, r.ticket_key = d.cols.key) →
      ((s₁.comments.filter (fun c => !(sqlEqB c.ticket_key d.cols.key)) ++ rows).filter
        (fun c => sqlEqB c.ticket_key d.cols.key)).length = rows.length := by
    intro rows hall
    rw [List.filter_append, filter_of_filter_not]
    rw [List.filter_eq_self.mpr (fun r hr => by rw [hall r hr]; exact hrefl)]
    simp
  refine ⟨?_, hchild d.comments hcom, ?_, ?_, ?_⟩
  · rw [List.filter_append, filter_of_filter_not]
    simp [hrefl]
  · rw [List.filter_append, filter_of_filter_not]
    rw [List.filter_eq_self.mpr (fun r hr => by rw [hchg r hr]; exact hrefl)]
    simp
  · rw [List.filter_append, filter_of_filter_not]
    rw [List.filter_eq_self.mpr (fun r hr => by rw [hlnk r hr]; exact hrefl)]
    simp
  · rw [List.filter_append, filter_of_filter_not]
    rw [List.filter_eq_self.mpr (fun r hr => by rw [hsub r hr]; exact hrefl)]
    simp

/-- Concrete normalized-style record used by the storage witnesses. -/
def wTicket : Json :=
  .obj [("key", .str "T-1"), ("id", .str "10"), ("summary", .str "hello world"),
        ("description", .str "some text"),
        ("comments", .arr [.obj [("id", .str "c1"), ("body", .str "a comment")]]),
        ("changelog", .arr [.obj [("field", .str "status")]]),
        ("links", .arr []), ("subtasks", .arr [])]

/-- Witness for `upsert_idempotent` on a concrete double ingestion. -/
theorem upsert_idempotent_witness :
    ∃ d s₁ s₂,
      build_insert wTicket = .ok d ∧ d.cols.key ≠ .null ∧
      insert_ticket wTicket emptyStore = .ok s₁ ∧ insert_ticket wTicket s₁ = .ok s₂ ∧
      (s₂.tickets.filter (fun r => sqlEqB r.cols.key d.cols.key)).length = 1 ∧
      (s₂.comments.filter (fun c => sqlEqB c.ticket_key d.cols.key)).length =
        d.comments.length := by
  refine ⟨_, _, _, rfl, by decide, rfl, rfl, ?_, ?_⟩
  · exact (upsert_idempotent wTicket emptyStore _ _ _ rfl (by decide) rfl rfl).1
  · exact (upsert_idempotent wTicket emptyStore _ _ _ rfl (by decide) rfl rfl).2.1

/-! ## Full-text index model and the viewer's FTS query path -/

/-- SQL text rendering of a stored value as the FTS tokenizer sees it (NULL
indexes as empty; arrays/objects are never bound into the indexed columns). -/
def sqlText : Json → String
  | .str s => s
  | .null => ""
  | .num n => toString n
  | .bool true => "1"
  | .bool false => "0"
  | .arr _ => ""
  | .obj _ => ""

/-- Maximal alphanumeric runs of a character stream (the unicode61-style
tokenization FTS5 applies, restricted to the ASCII data exercised here). -/
def wordsAux : List Char → List Char → List String
  | [], acc => if acc.isEmpty then [] else [String.mk acc.reverse]
  | c :: rest, acc =>
    if c.isAlphanum then wordsAux rest (c :: acc)
    else if acc.isEmpty then wordsAux rest []
    else String.mk acc.reverse :: wordsAux rest []

/-- Lowercased tokens of a column value. -/
def ftsWords (s : String) : List String := wordsAux (strToLower s).data []

def entryWords (e : FtsEntry) : List String :=
  ftsWords (sqlText e.key) ++ ftsWords (sqlText e.summary) ++ ftsWords (sqlText e.description)

/-- FTS5 match of one index entry against the viewer's query form
(`fts_query = f'"{query}"' if ' ' in query else f'{query}*'`): a phrase query
requires the phrase's tokens consecutively within one column, a prefix query
requires some token of some column to extend the query token. -/
def entryMatches (e : FtsEntry) (q : String) : Bool :=
  if strContainsChar q ' ' then
    [sqlText e.key, sqlText e.summary, sqlText e.description].any
      (fun c => listIsInfix (ftsWords q) (ftsWords c))
  else
    (entryWords e).any (fun w => strStartsWith w (strToLower q))

/-- The viewer's `JOIN tickets t ON t.key = fts.key` for one matching index
entry: with an external-content FTS table the `fts.key` column is read from
the `tickets` row with the entry's rowid; if that row no longer exists the
read gives NULL, which joins nothing. -/
def fts_join (tickets : List TicketRow) (e : FtsEntry) : List TicketRow :=
  match tickets.find? (fun r => r.rowid == e.rowid) with
  | none => []
  | some ct => tickets.filter (fun r => sqlEqB r.cols.key ct.cols.key)

/-- Rows produced by the viewer's FTS-path SELECT for a token query (without
structured filters, which are empty in the scenarios considered). -/
def fts_rows (s : Store) (q : String) : List TicketRow :=
  s.fts.flatMap (fun e => if entryMatches e q then fts_join s.tickets e else [])

/-- The `t.key` values the FTS-path query returns. -/
def fts_query (s : Store) (q : String) : List Json :=
  (fts_rows s q).map (fun r => r.cols.key)

/-- Index entries whose rowid still exists in the content table. -/
def liveFts (s : Store) : List FtsEntry :=
  s.fts.filter (fun e => s.tickets.any (fun r => r.rowid == e.rowid))

/-- Invariant of stores reachable by `insert_ticket` from `emptyStore`: rowids
are bounded by the allocation counter and unique, and the live part of the
FTS index agrees exactly with the content table. -/
def storeInv (s : Store) : Prop :=
  (∀ r ∈ s.tickets, r.rowid < s.nextRowid) ∧
  (∀ e ∈ s.fts, e.rowid < s.nextRowid) ∧
  (s.tickets.map (fun r => r.rowid)).Nodup ∧
  liveFts s = s.tickets.map ftsRowOf

instance (s : Store) : Decidable (storeInv s) := by
  unfold storeInv liveFts
  infer_instance

theorem strStartsWith_self (s : String) : strStartsWith s s = true := by
  simp [strStartsWith, List.isPrefixOf_iff_prefix]

theorem flatMap_eq_filter_flatMap {l : List β} {p : β → Bool} {f : β → List γ}
    (h : ∀ b ∈ l, p b = false → f b = []) : l.flatMap f = (l.filter p).flatMap f := by
  induction l with
  | nil => rfl
  | cons b rest ih =>
    have ih' := ih (fun x hx hpx => h x (List.mem_cons_of_mem _ hx) hpx)
    by_cases hb : p b = true
    · simp [List.flatMap_cons, List.filter_cons, hb, ih']
    · have hfb : f b = [] := h b (List.mem_cons_self _ _) (by simpa using hb)
      simp [List.flatMap_cons, List.filter_cons, hb, hfb, ih']

theorem fts_join_of_not_live {tickets : List TicketRow} {e : FtsEntry}
    (h : tickets.any (fun r => r.rowid == e.rowid) = false) : fts_join tickets e = [] := by
  unfold fts_join
  have hnone : tickets.find? (fun r => r.rowid == e.rowid) = none :=
    List.find?_eq_none.mpr (fun r hr => by
      have := List.any_eq_false.mp h r hr
      simpa using this)
  rw [hnone]

theorem fts_rows_eq_live (s : Store) (q : String) :
    fts_rows s q =
      (liveFts s).flatMap (fun e => if entryMatches e q then fts_join s.tickets e else []) := by
  unfold fts_rows liveFts
  refine flatMap_eq_filter_flatMap (fun e _ hdead => ?_)
  by_cases hm : entryMatches e q = true
  · rw [if_pos hm]
    exact fts_join_of_not_live hdead
  · rw [if_neg hm]

theorem fts_query_rebuild {s : Store} (hInv : storeInv s) (q : String) :
    fts_query (rebuild_fts s) q = fts_query s q := by
  unfold fts_query
  have h1 : fts_rows (rebuild_fts s) q =
      (s.tickets.map ftsRowOf).flatMap
        (fun e => if entryMatches e q then fts_join s.tickets e else []) := rfl
  rw [h1, fts_rows_eq_live s q, hInv.2.2.2]

theorem filter_filter_of_imp {l : List α} {p q : α → Bool}
    (h : ∀ a ∈ l, p a = true → q a = true) : l.filter p = (l.filter q).filter p := by
  induction l with
  | nil => rfl
  | cons a rest ih =>
    have ih' := ih (fun x hx => h x (List.mem_cons_of_mem _ hx))
    by_cases hp : p a = true
    · have hq := h a (List.mem_cons_self _ _) hp
      simp [List.filter_cons, hp, hq, ih']
    · by_cases hq : q a = true
      · simp [List.filter_cons, hp, hq, ih']
      · simp [List.filter_cons, hp, hq, ih']

theorem applied_insert_inv {s : Store} {d : InsertData} {c1 : List CommentRow}
    (hInv : storeInv s) : storeInv (applied_insert s d c1) := by
  obtain ⟨hb1, hb2, hb3, hb4⟩ := hInv
  have hkeptlt : ∀ r ∈ s.tickets.filter (fun r => !(sqlEqB r.cols.key d.cols.key)),
      r.rowid < s.nextRowid := fun r hr => hb1 r (List.mem_of_mem_filter hr)
  refine ⟨?_, ?_, ?_, ?_⟩
  · intro r hr
    simp only [applied_insert] at hr ⊢
    rcases List.mem_append.mp hr with h | h
    · have := hkeptlt r h
      omega
    · simp only [List.mem_singleton] at h
      subst h
      exact Nat.lt_succ_self _
  · intro e he
    simp only [applied_insert] at he ⊢
    rcases List.mem_append.mp he with h | h
    · have := hb2 e h
      omega
    · simp only [List.mem_singleton] at h
      subst h
      exact Nat.lt_succ_self _
  · simp only [applied_insert, List.map_append]
    rw [List.nodup_append]
    refine ⟨List.Nodup.sublist (List.Sublist.map _ (List.filter_sublist _)) hb3, by simp, ?_⟩
    intro x hx hy
    simp only [List.map_cons, List.map_nil, List.mem_singleton] at hy
    obtain ⟨r, hr, hrx⟩ := List.mem_map.mp hx
    have := hkeptlt r hr
    omega
  · show liveFts (applied_insert s d c1) = (applied_insert s d c1).tickets.map ftsRowOf
    unfold liveFts
    simp only [applied_insert]
    rw [List.filter_append]
    have hnew : [ftsRowOf (⟨s.nextRowid, d.cols⟩ : TicketRow)].filter
        (fun e => ((s.tickets.filter (fun r => !(sqlEqB r.cols.key d.cols.key))) ++
          [(⟨s.nextRowid, d.cols⟩ : TicketRow)]).any (fun r => r.rowid == e.rowid)) =
        [ftsRowOf (⟨s.nextRowid, d.cols⟩ : TicketRow)] := by
      simp [List.any_append, ftsRowOf]
    rw [hnew]
    have hold : s.fts.filter
        (fun e => ((s.tickets.filter (fun r => !(sqlEqB r.cols.key d.cols.key))) ++
          [(⟨s.nextRowid, d.cols⟩ : TicketRow)]).any (fun r => r.rowid == e.rowid)) =
        s.fts.filter
          (fun e => (s.tickets.filter (fun r => !(sqlEqB r.cols.key d.cols.key))).any
            (fun r => r.rowid == e.rowid)) := by
      refine List.filter_congr (fun e he => ?_)
      have hlt := hb2 e he
      have hne : ((⟨s.nextRowid, d.cols⟩ : TicketRow).rowid == e.rowid) = false := by
        simp only [beq_eq_false_iff_ne]
        intro hcontra
        omega
      simp [List.any_append, hne]
    rw [hold]
    have himp : ∀ e ∈ s.fts,
        ((s.tickets.filter (fun r => !(sqlEqB r.cols.key d.cols.key))).any
          (fun r => r.rowid == e.rowid)) = true →
        (s.tickets.any (fun r => r.rowid == e.rowid)) = true := by
      intro e _ h
      obtain ⟨r, hr, hbq⟩ := List.any_eq_true.mp h
      exact List.any_eq_true.mpr ⟨r, List.mem_of_mem_filter hr, hbq⟩
    rw [filter_filter_of_imp himp]
    rw [show s.fts.filter (fun e => s.tickets.any (fun r => r.rowid == e.rowid)) =
        s.tickets.map ftsRowOf from hb4]
    rw [List.filter_map]
    have hident : s.tickets.filter
        ((fun e => (s.tickets.filter (fun r => !(sqlEqB r.cols.key d.cols.key))).any
          (fun r => r.rowid == e.rowid)) ∘ ftsRowOf) =
        s.tickets.filter (fun r => !(sqlEqB r.cols.key d.cols.key)) := by
      refine List.filter_congr (fun r hr => ?_)
      show ((s.tickets.filter (fun r => !(sqlEqB r.cols.key d.cols.key))).any
        (fun r2 => r2.rowid == (ftsRowOf r).rowid)) = !(sqlEqB r.cols.key d.cols.key)
      by_cases hp : (!(sqlEqB r.cols.key d.cols.key)) = true
      · rw [hp]
        exact List.any_eq_true.mpr ⟨r, List.mem_filter.mpr ⟨hr, hp⟩, by simp [ftsRowOf]⟩
      · have hp' : (!(sqlEqB r.cols.key d.cols.key)) = false := by
          simpa using hp
        rw [hp']
        refine List.any_eq_false.mpr ?_
        intro r2 hr2
        simp only [ftsRowOf, beq_iff_eq]
        intro hrow
        have hreq : r2 = r :=
          List.inj_on_of_nodup_map hb3 (List.mem_of_mem_filter hr2) hr hrow
        subst hreq
        rw [(List.mem_filter.mp hr2).2] at hp'
        exact Bool.true_eq_false.mp hp'
    rw [hident, List.map_append]
    simp [ftsRowOf]

theorem applied_insert_mem {s : Store} {d : InsertData} {c1 : List CommentRow} {tok : String}
    (hInv : storeInv s) (hkey : d.cols.key ≠ .null)
    (hnospace : strContainsChar tok ' ' = false)
    (hlow : strToLower tok = tok)
    (htok : tok ∈ ftsWords (sqlText d.cols.summary) ∨
      tok ∈ ftsWords (sqlText d.cols.description)) :
    d.cols.key ∈ fts_query (applied_insert s d c1) tok := by
  obtain ⟨hb1, _, _, _⟩ := hInv
  have hkeptlt : ∀ r ∈ s.tickets.filter (fun r => !(sqlEqB r.cols.key d.cols.key)),
      r.rowid < s.nextRowid := fun r hr => hb1 r (List.mem_of_mem_filter hr)
  have hematch : entryMatches (ftsRowOf ⟨s.nextRowid, d.cols⟩) tok = true := by
    unfold entryMatches
    rw [if_neg (by simp [hnospace])]
    refine List.any_eq_true.mpr ⟨tok, ?_, by rw [hlow]; exact strStartsWith_self tok⟩
    unfold entryWords
    rcases htok with h | h
    · exact List.mem_append.mpr (Or.inl (List.mem_append.mpr (Or.inr h)))
    · exact List.mem_append.mpr (Or.inr h)
  have hfind : ((s.tickets.filter (fun r => !(sqlEqB r.cols.key d.cols.key))) ++
      [(⟨s.nextRowid, d.cols⟩ : TicketRow)]).find?
        (fun r => r.rowid == (ftsRowOf (⟨s.nextRowid, d.cols⟩ : TicketRow)).rowid) =
      some ⟨s.nextRowid, d.cols⟩ := by
    rw [List.find?_append]
    have h1 : (s.tickets.filter (fun r => !(sqlEqB r.cols.key d.cols.key))).find?
        (fun r => r.rowid == (ftsRowOf (⟨s.nextRowid, d.cols⟩ : TicketRow)).rowid) = none := by
      refine List.find?_eq_none.mpr (fun r hr hbeq => ?_)
      have hlt := hkeptlt r hr
      have heq : r.rowid = s.nextRowid := by simpa [ftsRowOf] using hbeq
      omega
    rw [h1]
    simp [Option.or, List.find?, ftsRowOf]
  unfold fts_query fts_rows
  simp only [applied_insert]
  refine List.mem_map.mpr ⟨⟨s.nextRowid, d.cols⟩, ?_, rfl⟩
  refine List.mem_flatMap.mpr ⟨ftsRowOf ⟨s.nextRowid, d.cols⟩, by simp, ?_⟩
  rw [if_pos hematch]
  unfold fts_join
  rw [hfind]
  exact List.mem_filter.mpr ⟨List.mem_append.mpr (Or.inr (by simp)), sqlEqB_refl hkey⟩

/-- C2 (amended): after any upsert into a store satisfying the reachability
invariant, an FTS query for a token of the ticket's summary or description
returns that ticket's key, the invariant is preserved, and rebuilding the
index via `optimize()` leaves every query result unchanged.  The index CAN
diverge from the tickets table, however: re-upserting an existing key leaves a
stale index entry for the replaced rowid (`fts_stale_entry_cex`), which never
joins to a live ticket row and is removed by the rebuild. -/
theorem fts_consistency :
    ∀ (t : Json) (s s' : Store) (d : InsertData) (tok : String),
      storeInv s →
      build_insert t = .ok d →
      insert_ticket t s = .ok s' →
      d.cols.key ≠ .null →
      strContainsChar tok ' ' = false →
      strToLower tok = tok →
      (tok ∈ ftsWords (sqlText d.cols.summary) ∨
        tok ∈ ftsWords (sqlText d.cols.description)) →
      d.cols.key ∈ fts_query s' tok ∧ storeInv s' ∧
      (∀ q, fts_query (rebuild_fts s') q = fts_query s' q) := by
  intro t s s' d tok hInv hbuild hins hkey hnospace hlow htok
  simp only [insert_ticket, hbuild, bind_eq_ok] at hins
  obtain ⟨d2, hd2, c1, hc1, hok⟩ := hins
  cases hd2
  cases hok
  have hInv' := @applied_insert_inv _ d c1 hInv
  exact ⟨applied_insert_mem hInv hkey hnospace hlow htok, hInv',
    fun q => fts_query_rebuild hInv' q⟩

/-- C2 counterexample: the claim's "the full-text search index never diverges
from the tickets table" is false.  Upserting the same ticket twice leaves one
`tickets` row but two `tickets_fts` entries: the `INSERT OR REPLACE` deletes
the old row without firing the FTS delete trigger (SQLite fires delete
triggers for REPLACE only under `recursive_triggers`, which the code never
enables), so the old index entry goes stale instead of being removed. -/
theorem fts_stale_entry_cex :
    ∃ s₁ s₂,
      insert_ticket wTicket emptyStore = .ok s₁ ∧ insert_ticket wTicket s₁ = .ok s₂ ∧
      s₁.fts = s₁.tickets.map ftsRowOf ∧
      s₂.tickets.length = 1 ∧ s₂.fts.length = 2 ∧
      s₂.fts ≠ s₂.tickets.map ftsRowOf := by
  refine ⟨_, _, rfl, rfl, ?_, ?_, ?_, ?_⟩
  · decide
  · decide
  · decide
  · decide

/-- Witness for `fts_consistency`: upserting `wTicket` into the empty store
makes the token "hello" (from its summary "hello world") find key "T-1". -/
theorem fts_consistency_witness :
    ∃ d s₁,
      storeInv emptyStore ∧ build_insert wTicket = .ok d ∧
      insert_ticket wTicket emptyStore = .ok s₁ ∧ d.cols.key ≠ .null ∧
      strContainsChar "hello" ' ' = false ∧ strToLower "hello" = "hello" ∧
      "hello" ∈ ftsWords (sqlText d.cols.summary) ∧
      d.cols.key ∈ fts_query s₁ "hello" ∧ storeInv s₁ := by
  refine ⟨_, _, by decide, rfl, rfl, by decide, by decide, by decide, by decide, ?_, ?_⟩
  · exact (fts_consistency wTicket emptyStore _ _ "hello" (by decide) rfl rfl
      (by decide) (by decide) (by decide) (Or.inl (by decide))).1
  · exact (fts_consistency wTicket emptyStore _ _ "hello" (by decide) rfl rfl
      (by decide) (by decide) (by decide) (Or.inl (by decide))).2.1

/-! ## Raw-form preservation (C8) -/

theorem extract_comment_info_bodyRaw {c o : Json}
    (h : extract_comment_info c = .ok o) :
    ∃ ckvs, c = .obj ckvs ∧ jGet o "bodyRaw" = some ((objLookup ckvs "body").getD .null) := by
  rw [extract_comment_info] at h
  obtain ⟨ckvs, hc, h⟩ := bind_eq_ok.mp h
  refine ⟨ckvs, expectDict_ok hc, ?_⟩
  by_cases hobj : ((objLookup ckvs "body").getD (Json.obj [])).isObj = true
  · rw [if_pos hobj] at h
    obtain ⟨bt, hbt, h⟩ := bind_eq_ok.mp h
    obtain ⟨au, hau, h⟩ := bind_eq_ok.mp h
    injection h with h
    subst h
    rfl
  · rw [if_neg hobj] at h
    obtain ⟨bt, hbt, h⟩ := bind_eq_ok.mp h
    obtain ⟨au, hau, h⟩ := bind_eq_ok.mp h
    injection h with h
    subst h
    rfl

/-- C8 (amended): `descriptionRaw` is the original `fields.description` value
verbatim and each produced comment's `bodyRaw` is the original comment `body`
verbatim — so re-serializing them reproduces the original structures — while
the `raw_json` column of the stored row serializes the NORMALIZED record
(`json.dumps(ticket)` on `insert_ticket`'s argument), not the original raw
payload fetched from the source (`raw_payload_not_original_cex`); the
`description_raw` column serializes the record's `descriptionRaw` field. -/
theorem raw_preservation :
    ∀ (issue commentsJ : Json) (now : String) (p : Json),
      process_issue issue commentsJ now = .ok p →
      (∃ d f, issue = .obj d ∧ (objLookup d "fields").getD (.obj []) = .obj f ∧
        jGet p "descriptionRaw" = some ((objLookup f "description").getD .null)) ∧
      (∃ cl infos, asIterable commentsJ = .ok cl ∧ jGet p "comments" = some (.arr infos) ∧
        List.Forall₂ (fun c o => ∃ ckvs, c = .obj ckvs ∧
          jGet o "bodyRaw" = some ((objLookup ckvs "body").getD .null)) cl infos) ∧
      (∀ (t : Json) (dd : InsertData), build_insert t = .ok dd →
        ∃ tk, t = .obj tk ∧ dd.cols.raw_json = jsonDumps t ∧
          dd.cols.description_raw = jsonDumps ((objLookup tk "descriptionRaw").getD .null)) := by
  intro issue commentsJ now p h
  simp only [process_issue, map_eq_ok] at h
  obtain ⟨g, hg, hp⟩ := h
  simp only [gather_issue, bind_eq_ok] at hg
  obtain ⟨dk, hdk, f, hf, descr, hdescr, sc, hsc, us, hus, cl, hcl, infos, hinfos,
          chg, hchg, co, hco, cu, hcu, hok⟩ := hg
  cases hok
  subst hp
  refine ⟨⟨dk, f, expectDict_ok hdk, expectDict_ok hf, rfl⟩,
          ⟨cl, infos, hcl, rfl, ?_⟩, ?_⟩
  · exact List.Forall₂.imp (fun c o hco2 => extract_comment_info_bodyRaw hco2)
      (mapExcept_ok_forall₂ hinfos)
  · intro t dd hb
    simp only [build_insert, bind_eq_ok] at hb
    obtain ⟨tk, htk, parts, hparts, cL2, hcL2, cs2, hcs2, gL2, hgL2, gs2, hgs2,
            lL2, hlL2, ls2, hls2, sL2, hsL2, ss2, hss2, hok2⟩ := hb
    cases hok2
    exact ⟨tk, expectDict_ok htk, rfl, rfl⟩

def c8_issue : Json :=
  .obj [("key", .str "A-1"), ("fields", .obj [("description", .str "d")])]

def c8_comment : Json := .obj [("id", .str "1"), ("body", .str "b")]

/-- C8 counterexample: the complete original raw payload is NOT retained.  The
`raw_json` column stores `json.dumps` of the normalized record `insert_ticket`
receives, which differs from the original raw issue (here: the original has a
`fields` object, the normalized record does not), so re-serializing the stored
raw form does not reproduce the original source input. -/
theorem raw_payload_not_original_cex :
    ∃ p dd,
      process_issue c8_issue (.arr []) "T" = .ok p ∧
      build_insert p = .ok dd ∧
      dd.cols.raw_json = jsonDumps p ∧
      p ≠ c8_issue ∧ jsonDumps p ≠ jsonDumps c8_issue := by
  refine ⟨_, _, rfl, rfl, rfl, by decide, by decide⟩

/-- Witness for `raw_preservation` on a concrete issue and comment. -/
theorem raw_preservation_witness :
    ∃ p d f,
      process_issue c8_issue (.arr [c8_comment]) "T" = .ok p ∧
      c8_issue = .obj d ∧ (objLookup d "fields").getD (.obj []) = .obj f ∧
      jGet p "descriptionRaw" = some ((objLookup f "description").getD .null) := by
  have h := raw_preservation c8_issue (.arr [c8_comment]) "T" _ rfl
  obtain ⟨d, f, hd, hf, hraw⟩ := h.1
  exact ⟨_, d, f, rfl, hd, hf, hraw⟩

/-! ## Offset pagination (`JiraScraper._paginate`) -/

/-- One parsed offset-mode response: the optional integral `total` field and
the already-extracted record array (`data.get(key, [])` /
`data.get("issues", [])`).  The HTTP and JSON layers are abstracted into the
`server` function, which receives the parameter dict as it stands at request
time. -/
structure OffsetResp (α : Type) where
  total : Option Int
  results : List α

abbrev PyDict := List (String × Json)

/-- Heap fragment for Python parameter dicts: a reference is an index, so
mutation through one reference is observable through aliases. -/
abbrev Heap := List PyDict

structure PaginateOut (α : Type) where
  all_results : List α
  requests : Nat
  warned : Bool

/-- The while-loop of `_paginate`: extend the accumulator with the page, latch
`total` from the first response (`data.get("total", len(results))`), stop
successfully once `len(all_results) >= total`, stop with the partial-result
warning (the printed message, modelled as the `warned` flag) on an empty page,
else write `params["startAt"] = len(all_results)` into the dict and repeat.
`fuel` bounds the loop iterations so the function is total; `none` (fuel
exhausted) is never reached in the scenarios proved below. -/
def paginate_loop (server : PyDict → OffsetResp α) (h : Heap) (pref : Nat)
    (acc : List α) (total? : Option Int) (reqs : Nat) :
    Nat → Option (PaginateOut α × Heap)
  | 0 => none
  | fuel + 1 =>
    let d := h.getD pref []
    let resp := server d
    let acc2 := acc ++ resp.results
    let total := total?.getD (resp.total.getD (resp.results.length : Int))
    if (acc2.length : Int) ≥ total then some (⟨acc2, reqs + 1, false⟩, h)
    else if resp.results.isEmpty then some (⟨acc2, reqs + 1, true⟩, h)
    else
      paginate_loop server (h.set pref (assocSet d "startAt" (.num acc2.length)))
        pref acc2 (some total) (reqs + 1) fuel

/-- Embeds `JiraScraper._paginate`: `params = dict(params) if params else {}`
allocates a fresh dict (a copy of a truthy dict argument, a new empty dict
otherwise), sets `startAt = 0` and `maxResults = 100` on the copy, and runs
the loop with the fresh reference. -/
def paginate (server : PyDict → OffsetResp α) (h : Heap) (params : Option Nat)
    (fuel : Nat) : Option (PaginateOut α × Heap) :=
  let base : PyDict :=
    match params with
    | some r => let d0 := h.getD r []; if d0.isEmpty then [] else d0
    | none => []
  let d1 := assocSet (assocSet base "startAt" (.num 0)) "maxResults" (.num 100)
  paginate_loop server (h ++ [d1]) h.length [] none 0 fuel

def c3_startAt (d : PyDict) : Int :=
  match objLookup d "startAt" with
  | some (.num n) => n
  | _ => 0

/-- Simulated source declaring `total = 250` and honoring the requested
window (pages of 100, 100, 50 records, identified by their index). -/
def c3_server_full (d : PyDict) : OffsetResp Nat :=
  ⟨some 250, ((List.range 250).drop (c3_startAt d).toNat).take 100⟩

/-- Simulated source declaring `total = 250` but drying up after 150 records:
the third page is empty. -/
def c3_server_short (d : PyDict) : OffsetResp Nat :=
  ⟨some 250,
    if c3_startAt d = 0 then List.range 100
    else if c3_startAt d = 100 then List.range' 100 50
    else []⟩

set_option maxRecDepth 40000 in
/-- C3: offset pagination terminates correctly.  Against a source declaring
`total = 250` with page size 100, `_paginate` issues exactly 3 requests and
returns the 250 records in request order; against a source that returns an
empty page after only 150 of a declared 250, it stops after the empty page
and returns the 150 accumulated records with the warning flag set — a normal
return, not an error. -/
theorem offset_pagination_termination :
    (paginate c3_server_full [] none 10).map
      (fun o => (o.1.all_results, o.1.requests, o.1.warned)) =
      some (List.range 250, 3, false) ∧
    (paginate c3_server_short [] none 10).map
      (fun o => (o.1.all_results, o.1.requests, o.1.warned)) =
      some (List.range 150, 3, true) :=
  ⟨rfl, rfl⟩

theorem paginate_loop_heap_frame {α : Type} {server : PyDict → OffsetResp α} :
    ∀ (fuel : Nat) (h : Heap) (pref : Nat) (acc : List α) (total? : Option Int) (reqs : Nat)
      (out : PaginateOut α × Heap),
      paginate_loop server h pref acc total? reqs fuel = some out →
      ∀ i, i ≠ pref → out.2[i]? = h[i]? := by
  intro fuel
  induction fuel with
  | zero =>
    intro h pref acc t r out hout
    simp [paginate_loop] at hout
  | succ fuel ih =>
    intro h pref acc t r out hout i hi
    simp only [paginate_loop] at hout
    split at hout
    · cases hout
      rfl
    · split at hout
      · cases hout
        rfl
      · have hstep := ih _ _ _ _ _ _ hout i hi
        rw [hstep]
        exact List.getElem?_set_ne (Ne.symm hi)

/-- C10: the offset paginator never mutates its caller's parameter dict — it
works on a fresh copy when adding the `startAt`/`maxResults` pagination state,
so the mapping the caller observes after the call equals the one before. -/
theorem paginate_no_param_mutation :
    ∀ {α : Type} (server : PyDict → OffsetResp α) (h : Heap) (r : Nat) (fuel : Nat)
      (out : PaginateOut α × Heap),
      r < h.length →
      paginate server h (some r) fuel = some out →
      out.2[r]? = h[r]? := by
  intro α server h r fuel out hr hout
  unfold paginate at hout
  have hframe := paginate_loop_heap_frame fuel _ _ _ _ _ _ hout r (by omega)
  rw [hframe, List.getElem?_append, if_pos hr]

def c10_server (_ : PyDict) : OffsetResp Nat := ⟨some 0, []⟩

/-- Witness for `paginate_no_param_mutation`: a caller dict holding a `jql`
entry is unchanged by a full pagination run. -/
theorem paginate_no_param_mutation_witness :
    ∃ out,
      0 < ([[("jql", Json.str "project = X")]] : Heap).length ∧
      paginate c10_server [[("jql", Json.str "project = X")]] (some 0) 5 = some out ∧
      out.2[0]? = ([[("jql", Json.str "project = X")]] : Heap)[0]? := by
  refine ⟨_, by decide, rfl, ?_⟩
  exact paginate_no_param_mutation c10_server _ 0 5 _ (by decide) rfl

/-! ## HTTP retry loop (`JiraScraper._api_get`) and the comments soft-fail -/

/-- One HTTP response as `_api_get` inspects it: the status code and the
parsed JSON body (`Retry-After` only influences the sleep duration, which is
not modelled). -/
structure HttpResp where
  status : Nat
  body : Json

/-- Outcome of `_api_get`. -/
inductive ApiResult where
  | ok (body : Json)   -- `response.ok`: status below 400; returns `response.json()`
  | httpError          -- other non-2xx: `response.raise_for_status()` raises requests.HTTPError
  | exit               -- `sys.exit(1)`: 401, 403, or the retry bound exhausted
  deriving DecidableEq

/-- The `for attempt in range(max_retries)` loop of `_api_get`, reading the
response for each attempt from `resps`: 429 sleeps and retries, 401/403 exit
the process immediately, any other status at least 400 raises
`requests.HTTPError`, anything below 400 returns the body; falling off the
loop exits the process ("Max retries exceeded"). -/
def api_get_from (resps : Nat → HttpResp) (max_retries attempt : Nat) : ApiResult :=
  if attempt < max_retries then
    let r := resps attempt
    if r.status = 429 then api_get_from resps max_retries (attempt + 1)
    else if r.status = 401 then .exit
    else if r.status = 403 then .exit
    else if 400 ≤ r.status then .httpError
    else .ok r.body
  else .exit
termination_by max_retries - attempt
decreasing_by omega

/-- Embeds `JiraScraper._api_get` with its default `max_retries = 5`. -/
def api_get (resps : Nat → HttpResp) : ApiResult := api_get_from resps 5 0

/-- Embeds `JiraScraper.get_issue_comments` for one ticket: the inter-request
sleep is not modelled; `none` means the whole run aborts (an uncaught
`sys.exit` or a `.get` on a non-dict body — only `requests.HTTPError` is
caught and softened to the empty list). -/
def get_issue_comments (resps : Nat → HttpResp) : Option Json :=
  match api_get resps with
  | .ok data =>
    match data with
    | .obj kvs => some ((objLookup kvs "comments").getD (.arr []))
    | _ => none
  | .httpError => some (.arr [])
  | .exit => none

/-- C4 counterexample: a 401 (authorization) response on the comments fetch is
NOT softened to an empty collection — `_api_get` calls `sys.exit(1)` before
the `except requests.HTTPError` handler can run, aborting the whole run; the
same happens when every attempt returns 429 and the retry bound is exhausted. -/
theorem comments_auth_failure_aborts_cex :
    get_issue_comments (fun _ => ⟨401, .null⟩) = none ∧
    get_issue_comments (fun _ => ⟨429, .null⟩) = none ∧
    (none : Option Json) ≠ some (.arr []) := by
  refine ⟨?_, ?_, by decide⟩
  · simp [get_issue_comments, api_get, api_get_from]
  · simp [get_issue_comments, api_get, api_get_from]

/-- C4 (amended): per-ticket comment-fetch failure is non-fatal only for the
"other non-2xx" class — a `requests.HTTPError` raised by
`response.raise_for_status()` is caught and becomes the empty collection, so
the run continues; authorization failures (401/403) and rate-limit exhaustion
call `sys.exit(1)` inside `_api_get` and abort the whole run. -/
theorem comments_soft_fail :
    ∀ (resps : Nat → HttpResp),
      (api_get resps = .httpError → get_issue_comments resps = some (.arr [])) ∧
      (api_get resps = .exit → get_issue_comments resps = none) := by
  intro resps
  constructor
  · intro h
    simp [get_issue_comments, h]
  · intro h
    simp [get_issue_comments, h]

/-- Witness for `comments_soft_fail`: a 500 response is softened to the empty
collection; a 401 response aborts. -/
theorem comments_soft_fail_witness :
    api_get (fun _ => ⟨500, .null⟩) = .httpError ∧
    get_issue_comments (fun _ => ⟨500, .null⟩) = some (.arr []) ∧
    api_get (fun _ => ⟨401, .null⟩) = .exit ∧
    get_issue_comments (fun _ => ⟨401, .null⟩) = none := by
  have h500 : api_get (fun _ => ⟨500, .null⟩) = .httpError := by
    simp [api_get, api_get_from]
  have h401 : api_get (fun _ => ⟨401, .null⟩) = .exit := by
    simp [api_get, api_get_from]
  exact ⟨h500, (comments_soft_fail _).1 h500, h401, (comments_soft_fail _).2 h401⟩


/-! ## Federated search (`jira_viewer.search`)

The viewer opens N store files; a `(Store, Bool)` pair is one open database
together with the `has_fts` probe of `sqlite_master`.  Python's
`list.sort(key=..., reverse=True)` is a stable descending sort; it is modelled
by a stable insertion sort with the comparator "keep `a` before `b` when
`key b ≤ key a`" — any stable sort under the same comparator produces the
identical list.  String comparison is by code point (`strLe`, proved equal to
Lean's `≤` on `String` in `strLe_iff`), as in Python. -/

def charListLe : List Char → List Char → Bool
  | [], _ => true
  | _ :: _, [] => false
  | a :: as, b :: bs =>
    if a < b then true
    else if b < a then false
    else charListLe as bs

/-- Code-point lexicographic `≤` on strings, as Python compares `str`. -/
def strLe (a b : String) : Bool := charListLe a.data b.data

theorem lex_cons_cons_iff {r : Char → Char → Prop} {a b : Char} {l₁ l₂ : List Char} :
    List.Lex r (a :: l₁) (b :: l₂) ↔ r a b ∨ (a = b ∧ List.Lex r l₁ l₂) := by
  constructor
  · intro h
    cases h with
    | cons h => exact Or.inr ⟨rfl, h⟩
    | rel h => exact Or.inl h
  · intro h
    rcases h with h | ⟨rfl, h⟩
    · exact List.Lex.rel h
    · exact List.Lex.cons h

theorem charListLe_iff : ∀ a b : List Char, charListLe a b = true ↔ a ≤ b
  | [], b => by simp [charListLe, List.nil_le]
  | a :: as, [] => by
    simp only [charListLe, Bool.false_eq_true, false_iff]
    rw [← not_lt]
    exact not_not_intro List.Lex.nil
  | x :: xs, y :: ys => by
    have ih := charListLe_iff xs ys
    rw [charListLe]
    rcases lt_trichotomy x y with hxy | rfl | hyx
    · rw [if_pos hxy]
      simp only [true_iff]
      rw [← not_lt]
      intro hl
      rcases lex_cons_cons_iff.mp hl with h | ⟨rfl, h⟩
      · exact lt_asymm hxy h
      · exact lt_irrefl _ hxy
    · rw [if_neg (lt_irrefl _), if_neg (lt_irrefl _)]
      rw [ih, ← not_lt, ← not_lt]
      exact not_congr (Iff.symm List.Lex.cons_iff)
    · rw [if_neg (lt_asymm hyx), if_pos hyx]
      simp only [Bool.false_eq_true, false_iff]
      rw [← not_lt]
      exact not_not_intro (List.Lex.rel hyx)

theorem strLe_iff (a b : String) : strLe a b = true ↔ a ≤ b := by
  rw [String.le_iff_toList_le]
  exact charListLe_iff a.data b.data

def insertSorted (le : α → α → Bool) (a : α) : List α → List α
  | [] => [a]
  | b :: rest => if le a b then a :: b :: rest else b :: insertSorted le a rest

/-- Stable sort: earlier elements win ties. -/
def pySort (le : α → α → Bool) (l : List α) : List α := l.foldr (insertSorted le) []

theorem insertSorted_perm (le : α → α → Bool) (a : α) :
    ∀ l : List α, List.Perm (insertSorted le a l) (a :: l) := by
  intro l
  induction l with
  | nil => exact List.Perm.refl _
  | cons b rest ih =>
    by_cases h : le a b = true
    · rw [insertSorted, if_pos h]
    · rw [insertSorted, if_neg h]
      exact (List.Perm.cons b ih).trans (List.Perm.swap a b rest)

theorem pySort_perm (le : α → α → Bool) (l : List α) : List.Perm (pySort le l) l := by
  induction l with
  | nil => exact List.Perm.refl _
  | cons a rest ih =>
    have h1 : pySort le (a :: rest) = insertSorted le a (pySort le rest) := rfl
    rw [h1]
    exact (insertSorted_perm le a (pySort le rest)).trans (List.Perm.cons a ih)

theorem pairwise_insertSorted {le : α → α → Bool}
    (htot : ∀ a b, le a b = true ∨ le b a = true)
    (htrans : ∀ a b c, le a b = true → le b c = true → le a c = true) (a : α) :
    ∀ {l : List α}, l.Pairwise (fun x y => le x y = true) →
      (insertSorted le a l).Pairwise (fun x y => le x y = true) := by
  intro l hl
  induction l with
  | nil => simp [insertSorted]
  | cons b rest ih =>
    rcases List.pairwise_cons.mp hl with ⟨hb, hrest⟩
    by_cases h : le a b = true
    · rw [insertSorted, if_pos h]
      refine List.pairwise_cons.mpr ⟨?_, hl⟩
      intro x hx
      rcases List.mem_cons.mp hx with rfl | hx2
      · exact h
      · exact htrans a b x h (hb x hx2)
    · rw [insertSorted, if_neg h]
      have hba : le b a = true := (htot a b).resolve_left h
      refine List.pairwise_cons.mpr ⟨?_, ih hrest⟩
      intro x hx
      have hx3 := (insertSorted_perm le a rest).mem_iff.mp hx
      rcases List.mem_cons.mp hx3 with rfl | hx2
      · exact hba
      · exact hb x hx2

theorem pairwise_pySort {le : α → α → Bool}
    (htot : ∀ a b, le a b = true ∨ le b a = true)
    (htrans : ∀ a b c, le a b = true → le b c = true → le a c = true) (l : List α) :
    (pySort le l).Pairwise (fun x y => le x y = true) := by
  induction l with
  | nil => simp [pySort]
  | cons a rest ih => exact pairwise_insertSorted htot htrans a ih

/-- SQL `=` of a stored column value with a TEXT parameter (the structured
`status`/`project`/`type` filters); NULL matches nothing. -/
def sqlTextEq (col : Json) (v : String) : Bool :=
  match col with
  | .str s => s == v
  | _ => false

/-- `col LIKE '%q%'` as issued by the fallback path; NULL never matches. -/
def likeContains (col : Json) (q : String) : Bool :=
  match col with
  | .null => false
  | c => strContainsSub (sqlText c) q

/-- The optional `AND t.status = ? / t.project_key = ? / t.issue_type = ?`
clauses; an empty filter string adds no clause. -/
def row_filters (r : TicketRow) (status project issue_type : String) : Bool :=
  (status == "" || sqlTextEq r.cols.status status) &&
  (project == "" || sqlTextEq r.cols.project_key project) &&
  (issue_type == "" || sqlTextEq r.cols.issue_type issue_type)

/-- WHERE clause of the fallback SELECT: with a non-empty query, a substring
match on key, summary or description, plus the structured filters (`1=1` when
no condition applies). -/
def row_matches_fallback (r : TicketRow) (q status project issue_type : String) : Bool :=
  (q == "" || (likeContains r.cols.key q || likeContains r.cols.summary q ||
    likeContains r.cols.description q)) &&
  row_filters r status project issue_type

/-- One store's matches in `jira_viewer.search`: the FTS JOIN path when the
query text is non-empty and the store has a `tickets_fts` table, else the
fallback table scan.  Full ticket rows stand in for the SELECT's display
columns; the projection affects neither which rows appear nor their order. -/
def store_search (st : Store) (hasFts : Bool) (q status project issue_type : String) :
    List TicketRow :=
  if q != "" && hasFts then
    (st.fts.flatMap (fun e => if entryMatches e q then fts_join st.tickets e else [])).filter
      (fun r => row_filters r status project issue_type)
  else
    st.tickets.filter (fun r => row_matches_fallback r q status project issue_type)

/-- Python's `x.get("updated") or ""` sort key: a NULL or missing `updated`
sorts as the empty string (the column is TEXT or NULL in scraper-made
stores). -/
def updatedKey (r : TicketRow) : String :=
  match r.cols.updated with
  | .str s => s
  | _ => ""

/-- Merge step of `jira_viewer.search`: concatenate all stores' matches in
store order, then stably sort the combined list by `updated` descending. -/
def search_merge (stores : List (Store × Bool)) (q status project issue_type : String) :
    List TicketRow :=
  pySort (fun a b => strLe (updatedKey b) (updatedKey a))
    ((stores.map (fun sp => store_search sp.1 sp.2 q status project issue_type)).flatten)

/-- Pagination of the merged list (`per_page = 50`): the requested page slice
and the total page count. -/
def search_page (stores : List (Store × Bool)) (q status project issue_type : String)
    (page : Nat) : List TicketRow × Nat :=
  let all := search_merge stores q status project issue_type
  ((all.drop ((page - 1) * 50)).take 50, (all.length + 50 - 1) / 50)

def blankCols : TicketCols :=
  { key := .null, id := .null, summary := .null, description := .null,
    description_raw := "null", status := .null, status_category := .null, priority := .null,
    issue_type := .null, is_subtask := .num 0, project_key := .null, project_name := .null,
    creator_id := .null, creator_name := .null, creator_email := .null,
    reporter_id := .null, reporter_name := .null, reporter_email := .null,
    assignee_id := .null, assignee_name := .null, assignee_email := .null,
    created := .null, updated := .null, resolved := .null, resolution := .null,
    labels := "[]", components := "[]", fix_versions := "[]", affects_versions := "[]",
    parent_key := .null, parent_summary := .null, custom_fields := "\x7b\x7d",
    raw_json := "null", exported_at := .null }

/-- Store holding a ticket updated 2024-01-01 and one with no update stamp. -/
def vStoreA : Store :=
  { nextRowid := 3,
    tickets := [⟨1, { blankCols with key := .str "A-1", updated := .str "2024-01-01" }⟩,
                ⟨2, { blankCols with key := .str "A-2" }⟩],
    comments := [], changelog := [], links := [], subtasks := [], fts := [] }

/-- Store holding a ticket updated 2024-06-01. -/
def vStoreB : Store :=
  { nextRowid := 2,
    tickets := [⟨1, { blankCols with key := .str "B-1", updated := .str "2024-06-01" }⟩],
    comments := [], changelog := [], links := [], subtasks := [], fts := [] }

/-- C9: federated search ordering.  The merged result is sorted by `updated`
descending (a missing stamp sorts as the empty string, i.e. last) and is a
permutation of the concatenation of the per-store matches; in particular, for
two stores holding tickets updated 2024-01-01 and 2024-06-01 plus one with no
stamp, a query spanning both returns the 2024-06-01 ticket first and the
stampless ticket last. -/
theorem federated_merge_ordering :
    (∀ (stores : List (Store × Bool)) (q status project issue_type : String),
      (search_merge stores q status project issue_type).Pairwise
        (fun a b => updatedKey b ≤ updatedKey a)) ∧
    (∀ (stores : List (Store × Bool)) (q status project issue_type : String),
      List.Perm (search_merge stores q status project issue_type)
        ((stores.map (fun sp => store_search sp.1 sp.2 q status project issue_type)).flatten)) ∧
    ((search_merge [(vStoreA, false), (vStoreB, false)] "" "" "" "").map
      (fun r => r.cols.key) = [.str "B-1", .str "A-1", .str "A-2"]) := by
  refine ⟨?_, ?_, by decide⟩
  · intro stores q status project issue_type
    have h := @pairwise_pySort TicketRow
      (fun a b => strLe (updatedKey b) (updatedKey a))
      (fun a b => by
        rcases le_total (updatedKey b) (updatedKey a) with h | h
        · exact Or.inl ((strLe_iff _ _).mpr h)
        · exact Or.inr ((strLe_iff _ _).mpr h))
      (fun a b c hab hbc => by
        rw [strLe_iff] at hab hbc ⊢
        exact le_trans hbc hab)
      ((stores.map (fun sp => store_search sp.1 sp.2 q status project issue_type)).flatten)
    exact h.imp (fun {a b} hab => (strLe_iff _ _).mp hab)
  · intro stores q status project issue_type
    exact pySort_perm _ _
